import Mathlib

/-!
Shallow embedding of the scalping-bot detection/scoring pipeline
(src/structure/*.py, src/rejection_block/detector.py, src/wick/theory.py,
src/session/killzone.py, src/engine/*.py, src/backtest.py).

Prices and config thresholds are rationals (Python floats used as exact
decimals); bar indices are naturals; scores are integers (Python ints).
Timestamps are modelled as a timezone-awareness flag together with the
minute-of-day after conversion to America/New_York (the only two facts
`get_killzone_name` reads from a timestamp; the tz-conversion itself is
an external pandas facility).  `rolling(n).mean()` on a NaN-free series is
undefined (None) at indices `< n-1` and the window mean from `n-1` on.
-/

/-- Timestamp model: tz-awareness plus NY-local minute of day. -/
structure Ts where
  tzAware : Bool
  minuteOfDay : ℕ
deriving DecidableEq, Repr, Inhabited

/-- One OHLC bar (the `open`/`high`/`low`/`close` dataframe columns). -/
structure Bar where
  ts : Ts
  open' : ℚ
  high : ℚ
  low : ℚ
  close : ℚ
deriving DecidableEq, Repr, Inhabited

/-- A dataframe: OHLC bars plus an optional `volume` column. -/
structure DF where
  bars : List Bar
  volume : Option (List ℚ)
deriving DecidableEq, Repr, Inhabited

def bar0 : Bar := default

/-- Maximum of a list with a default for the empty list (models `Series.max`
on a nonempty slice). -/
def listMaxD (l : List ℚ) (d : ℚ) : ℚ :=
  match l with
  | [] => d
  | x :: xs => xs.foldl max x

/-- Minimum of a list with a default for the empty list. -/
def listMinD (l : List ℚ) (d : ℚ) : ℚ :=
  match l with
  | [] => d
  | x :: xs => xs.foldl min x

/-- `xs.iloc[lo : lo+n]` as a list slice. -/
def window_slice (xs : List ℚ) (lo n : ℕ) : List ℚ :=
  (xs.drop lo).take n

/-- A swing high or low (src/structure/swing.py `SwingLevel`). -/
structure SwingLevel where
  ts : Ts
  price : ℚ
  is_high : Bool
  bar_index : ℕ
deriving DecidableEq, Repr, Inhabited

/-- src/structure/swing.py `find_swing_highs_lows`: local extrema; swing high
at `i` when `high[i]` equals the max of the closed window of radius
`lookback`; degenerate input (fewer than `2*lookback+1` bars) gives two
empty lists. Returns (swing_highs, swing_lows), each ascending in bar index. -/
def find_swing_highs_lows (bars : List Bar) (lookback : ℕ) :
    List SwingLevel × List SwingLevel :=
  if bars.length < lookback * 2 + 1 then ([], [])
  else
    let highs := bars.map Bar.high
    let lows := bars.map Bar.low
    let idxs := List.range' lookback (bars.length - 2 * lookback)
    (idxs.filterMap (fun i =>
      if highs.getD i 0 = listMaxD (window_slice highs (i - lookback) (2 * lookback + 1)) 0 then
        some ⟨(bars.getD i bar0).ts, highs.getD i 0, true, i⟩
      else none),
     idxs.filterMap (fun i =>
      if lows.getD i 0 = listMinD (window_slice lows (i - lookback) (2 * lookback + 1)) 0 then
        some ⟨(bars.getD i bar0).ts, lows.getD i 0, false, i⟩
      else none))

/-- Rolling mean of window `n` at index `i` over a NaN-free series:
defined (the mean of `xs[i-n+1 .. i]`) exactly when `n ≤ i+1`. -/
def rollingMeanAt (xs : List ℚ) (n i : ℕ) : Option ℚ :=
  if 1 ≤ n ∧ n ≤ i + 1 then
    some (((window_slice xs (i + 1 - n) n).foldl (· + ·) 0) / n)
  else none

/-- True range at index `i` (src/structure/atr.py): `high-low` at index 0
(the `close.shift(1)` terms are NaN there and `max(axis=1)` skips NaN),
otherwise `max(high-low, |high-prev_close|, |low-prev_close|)`. -/
def true_range (high low close : List ℚ) (i : ℕ) : ℚ :=
  let hl := high.getD i 0 - low.getD i 0
  match i with
  | 0 => hl
  | j + 1 =>
    let pc := close.getD j 0
    max hl (max |high.getD i 0 - pc| |low.getD i 0 - pc|)

/-- src/structure/atr.py `atr_series`: rolling mean of true range over
`period` bars; `none` where the rolling window is not yet full. -/
def atr_series (high low close : List ℚ) (period : ℕ) : List (Option ℚ) :=
  let tr := (List.range high.length).map (true_range high low close)
  (List.range high.length).map (fun i => rollingMeanAt tr period i)

/-- A fair value gap (src/structure/fvg.py `FVG`). -/
structure FVG where
  ts : Ts
  direction : String
  zone_high : ℚ
  zone_low : ℚ
  bar_index : ℕ
deriving DecidableEq, Repr, Inhabited

/-- src/structure/fvg.py `find_fvgs`: bullish when `low(i) > high(i+2)`,
bearish when `high(i) < low(i+2)`; the gap is dated at the middle bar. -/
def find_fvgs (bars : List Bar) : List FVG :=
  if bars.length < 3 then []
  else
    (List.range (bars.length - 2)).flatMap (fun i =>
      let l1 := (bars.getD i bar0).low
      let h1 := (bars.getD i bar0).high
      let l3 := (bars.getD (i + 2) bar0).low
      let h3 := (bars.getD (i + 2) bar0).high
      (if l1 > h3 then
        [⟨(bars.getD (i + 1) bar0).ts, "bullish", l1, h3, i + 1⟩]
      else []) ++
      (if h1 < l3 then
        [⟨(bars.getD (i + 1) bar0).ts, "bearish", l3, h1, i + 1⟩]
      else []))

/-- An order block (src/structure/order_block.py `OrderBlock`). -/
structure OrderBlock where
  ts : Ts
  direction : String
  zone_high : ℚ
  zone_low : ℚ
  bar_index : ℕ
deriving DecidableEq, Repr, Inhabited

/-- src/structure/order_block.py `find_order_blocks`: last opposite-bodied
candle before `displacement_bars` same-direction candles; requires a
defined, positive ATR at the candidate bar and body ≥ `body_atr_mult × ATR`. -/
def find_order_blocks (bars : List Bar) (displacement_bars : ℕ)
    (body_atr_mult : ℚ) (atr_period : ℕ) : List OrderBlock :=
  if bars.length < displacement_bars + 2 then []
  else
    let atr := atr_series (bars.map Bar.high) (bars.map Bar.low)
      (bars.map Bar.close) atr_period
    (List.range' 1 (bars.length - displacement_bars - 2)).flatMap (fun i =>
      let b := bars.getD i bar0
      let body := |b.close - b.open'|
      match atr.getD i none with
      | none => []
      | some a =>
        if a ≤ 0 then []
        else if body < body_atr_mult * a then []
        else
          let window := List.range' (i + 1) (min (i + 1 + displacement_bars) bars.length - (i + 1))
          (if b.close < b.open' then
            let up_count := (window.filter (fun j =>
              (bars.getD j bar0).close > (bars.getD j bar0).open')).length
            if up_count ≥ displacement_bars then
              [⟨b.ts, "bullish", b.high, b.low, i⟩]
            else []
          else []) ++
          (if b.close > b.open' then
            let down_count := (window.filter (fun j =>
              (bars.getD j bar0).close < (bars.getD j bar0).open')).length
            if down_count ≥ displacement_bars then
              [⟨b.ts, "bearish", b.high, b.low, i⟩]
            else []
          else []))

/-- A liquidity sweep (src/structure/liquidity_sweep.py `LiquiditySweep`). -/
structure LiquiditySweep where
  ts : Ts
  direction : String
  level : ℚ
  bar_index : ℕ
deriving DecidableEq, Repr, Inhabited

/-- The swing-high test of the `find_liquidity_sweeps` inner loop at
position `i`: formed before `i`, broken above by `threshold_pct` at bar
`i+1`, and closed back below at bar `i+1`. -/
def sweep_high_match (bars : List Bar) (threshold_pct : ℚ) (i : ℕ)
    (sh : SwingLevel) : Bool :=
  decide (sh.bar_index < i) &&
  decide ((bars.getD (i + 1) bar0).high ≥ sh.price * (1 + threshold_pct)) &&
  decide ((bars.getD (i + 1) bar0).close < sh.price)

/-- The swing-low test of the `find_liquidity_sweeps` inner loop at
position `i`: formed before `i`, broken below by `threshold_pct` at bar
`i+1`, and closed back above at bar `i+1`. -/
def sweep_low_match (bars : List Bar) (threshold_pct : ℚ) (i : ℕ)
    (sl : SwingLevel) : Bool :=
  decide (sl.bar_index < i) &&
  decide ((bars.getD (i + 1) bar0).low ≤ sl.price * (1 - threshold_pct)) &&
  decide ((bars.getD (i + 1) bar0).close > sl.price)

/-- src/structure/liquidity_sweep.py `find_liquidity_sweeps`: for each
candidate position `i`, scan each swing list in output order and emit, for
the first swing formed before `i` (`swing.bar_index < i`) whose level bar
`i+1` breaks beyond by `threshold_pct` and closes back across, a sweep
dated at bar `i+1` (the bar that closes back). -/
def find_liquidity_sweeps (bars : List Bar) (swing_lookback : ℕ)
    (threshold_pct : ℚ) : List LiquiditySweep :=
  let (swing_highs, swing_lows) := find_swing_highs_lows bars swing_lookback
  if swing_highs.isEmpty ∧ swing_lows.isEmpty then []
  else
    (List.range' (swing_lookback * 2) (bars.length - 2 - swing_lookback * 2)).flatMap
      (fun i =>
        (match swing_highs.find? (sweep_high_match bars threshold_pct i) with
         | some sh => [⟨(bars.getD (i + 1) bar0).ts, "sweep_highs", sh.price, i + 1⟩]
         | none => []) ++
        (match swing_lows.find? (sweep_low_match bars threshold_pct i) with
         | some sl => [⟨(bars.getD (i + 1) bar0).ts, "sweep_lows", sl.price, i + 1⟩]
         | none => []))

/-- A rejection block (src/rejection_block/detector.py `RejectionBlock`). -/
structure RejectionBlock where
  timestamp : Ts
  direction : String
  zone_high : ℚ
  zone_low : ℚ
  candle_high : ℚ
  candle_low : ℚ
  bar_index : ℕ
  key_levels_nearby : List String
  reversal_confirmed : Bool
  volume_ok : Bool
deriving DecidableEq, Repr, Inhabited

/-- src/rejection_block/detector.py `_zone_near_price`: the price is within
`pct` of the zone midpoint (False when the midpoint is zero, by Python
truthiness of `mid`). -/
def zone_near_price (zone_high zone_low price pct : ℚ) : Bool :=
  let mid := (zone_high + zone_low) / 2
  if mid ≠ 0 then decide (|price - mid| ≤ mid * pct) else false

/-- src/rejection_block/detector.py `_zone_overlaps`: ranges overlap after
expanding range 1 by `mid1 * pct` (no expansion when `mid1` is zero). -/
def zone_overlaps (high1 low1 high2 low2 pct : ℚ) : Bool :=
  let mid1 := (high1 + low1) / 2
  let dist := if mid1 ≠ 0 then mid1 * pct else 0
  !(decide (high1 + dist < low2) || decide (low1 - dist > high2))

/-- The nearby-key-level tags for one rejection zone, in source append
order (swing, fvg, order_block, liquidity_sweep), one tag per category —
each category's scan breaks at its first matching level. -/
def rb_key_levels (direction : String) (zone_high zone_low pct : ℚ)
    (swing_highs swing_lows : List SwingLevel) (fvgs : List FVG)
    (obs : List OrderBlock) (sweeps : List LiquiditySweep) : List String :=
  if direction = "bullish" then
    (if swing_lows.any (fun sl => zone_near_price zone_high zone_low sl.price pct) then
      ["swing_low"] else []) ++
    (if fvgs.any (fun f => f.direction = "bullish" &&
        zone_overlaps zone_high zone_low f.zone_high f.zone_low pct) then
      ["fvg"] else []) ++
    (if obs.any (fun ob => ob.direction = "bullish" &&
        zone_overlaps zone_high zone_low ob.zone_high ob.zone_low pct) then
      ["order_block"] else []) ++
    (if sweeps.any (fun sw => sw.direction = "sweep_lows" &&
        zone_near_price zone_high zone_low sw.level pct) then
      ["liquidity_sweep"] else [])
  else
    (if swing_highs.any (fun sh => zone_near_price zone_high zone_low sh.price pct) then
      ["swing_high"] else []) ++
    (if fvgs.any (fun f => f.direction = "bearish" &&
        zone_overlaps zone_high zone_low f.zone_high f.zone_low pct) then
      ["fvg"] else []) ++
    (if obs.any (fun ob => ob.direction = "bearish" &&
        zone_overlaps zone_high zone_low ob.zone_high ob.zone_low pct) then
      ["order_block"] else []) ++
    (if sweeps.any (fun sw => sw.direction = "sweep_highs" &&
        zone_near_price zone_high zone_low sw.level pct) then
      ["liquidity_sweep"] else [])

/-- Reversal confirmation: some close within the next
`reversal_confirmation_bars` bars beyond the rejection candle's extreme
(above its high for bullish, below its low for bearish). -/
def rb_reversal_confirmed (bars : List Bar) (direction : String)
    (i reversal_confirmation_bars : ℕ) (h l : ℚ) : Bool :=
  let window := List.range' (i + 1)
    (min (i + 1 + reversal_confirmation_bars) bars.length - (i + 1))
  if direction = "bullish" then
    window.any (fun j => decide ((bars.getD j bar0).close > h))
  else
    window.any (fun j => decide ((bars.getD j bar0).close < l))

/-- `abs(c - o)`, the candle body size. -/
def bar_body (b : Bar) : ℚ := |b.close - b.open'|

/-- `min(o, c)`, the candle body's lower edge. -/
def bar_body_bottom (b : Bar) : ℚ := min b.open' b.close

/-- `max(o, c)`, the candle body's upper edge. -/
def bar_body_top (b : Bar) : ℚ := max b.open' b.close

/-- `h - max(o, c)`, the upper wick size. -/
def wick_upper_of (b : Bar) : ℚ := b.high - bar_body_top b

/-- `min(o, c) - l`, the lower wick size. -/
def wick_lower_of (b : Bar) : ℚ := bar_body_bottom b - b.low

/-- The lower wick qualifies: `wick_lower >= ratio * body`. -/
def rb_bullish_ok (wick_to_body_ratio_min : ℚ) (b : Bar) : Prop :=
  wick_lower_of b ≥ wick_to_body_ratio_min * bar_body b

/-- The upper wick qualifies: `wick_upper >= ratio * body`. -/
def rb_bearish_ok (wick_to_body_ratio_min : ℚ) (b : Bar) : Prop :=
  wick_upper_of b ≥ wick_to_body_ratio_min * bar_body b

instance (r : ℚ) (b : Bar) : Decidable (rb_bullish_ok r b) := by
  unfold rb_bullish_ok; infer_instance

instance (r : ℚ) (b : Bar) : Decidable (rb_bearish_ok r b) := by
  unfold rb_bearish_ok; infer_instance

/-- The dominant-wick direction of a qualifying candle (detector lines
92-95): when both wicks qualify, the longer wick wins and an exact tie is
bearish (the `>=` comparison); otherwise the qualifying side. -/
def rb_direction (wick_to_body_ratio_min : ℚ) (b : Bar) : String :=
  if rb_bullish_ok wick_to_body_ratio_min b ∧ rb_bearish_ok wick_to_body_ratio_min b then
    if wick_upper_of b ≥ wick_lower_of b then "bearish" else "bullish"
  else
    if rb_bullish_ok wick_to_body_ratio_min b then "bullish" else "bearish"

/-- Entry-zone upper edge of a rejection block (detector lines 97-102). -/
def rb_zone_high (direction : String) (b : Bar) : ℚ :=
  if direction = "bullish" then bar_body_bottom b else b.high

/-- Entry-zone lower edge of a rejection block (detector lines 97-102). -/
def rb_zone_low (direction : String) (b : Bar) : ℚ :=
  if direction = "bullish" then b.low else bar_body_top b

/-- Volume confirmation (detector lines 155-157): compare the candle's
volume to the trailing 20-bar average when that average is defined and
positive and the multiplier is positive; otherwise confirmed. -/
def rb_vol_ok (volume_above_avg_mult : ℚ) (vols : List ℚ) (i : ℕ) : Bool :=
  match rollingMeanAt vols 20 i with
  | some va =>
    if volume_above_avg_mult > 0 ∧ va > 0 then
      decide (vols.getD i 0 ≥ volume_above_avg_mult * va)
    else true
  | none => true

/-- One iteration of the `find_rejection_blocks` candle loop at index `i`:
`none` when neither wick qualifies, otherwise the block (longer wick wins
the direction tie-break, equal wicks classify bearish by `>=`). -/
def rb_candidate (df : DF) (wick_to_body_ratio_min : ℚ)
    (reversal_confirmation_bars : ℕ) (key_level_proximity_pct : ℚ)
    (volume_above_avg_mult : ℚ)
    (swing_highs swing_lows : List SwingLevel) (fvgs : List FVG)
    (obs : List OrderBlock) (sweeps : List LiquiditySweep)
    (vols : List ℚ) (i : ℕ) : Option RejectionBlock :=
  let b := df.bars.getD i bar0
  if ¬rb_bullish_ok wick_to_body_ratio_min b ∧ ¬rb_bearish_ok wick_to_body_ratio_min b then
    none
  else
    let direction := rb_direction wick_to_body_ratio_min b
    some ⟨b.ts, direction, rb_zone_high direction b, rb_zone_low direction b,
      b.high, b.low, i,
      rb_key_levels direction (rb_zone_high direction b) (rb_zone_low direction b)
        key_level_proximity_pct swing_highs swing_lows fvgs obs sweeps,
      rb_reversal_confirmed df.bars direction i reversal_confirmation_bars b.high b.low,
      rb_vol_ok volume_above_avg_mult vols i⟩

/-- src/rejection_block/detector.py `find_rejection_blocks`: scan candles
`1 ≤ i < len - reversal_confirmation_bars` (needs at least 4 bars), one
block per candle with a dominant wick, tagged with nearby key levels and
reversal/volume confirmation. The `volume` column defaults to the constant
series 1.0 when absent. -/
def find_rejection_blocks (df : DF) (wick_to_body_ratio_min : ℚ)
    (reversal_confirmation_bars : ℕ) (key_level_proximity_pct : ℚ)
    (volume_above_avg_mult : ℚ) (swing_lookback : ℕ) (atr_period : ℕ)
    (ob_displacement_bars : ℕ) (ob_body_atr_mult : ℚ)
    (sweep_threshold_pct : ℚ) : List RejectionBlock :=
  let bars := df.bars
  if bars.length < 4 then []
  else
    let (swing_highs, swing_lows) := find_swing_highs_lows bars swing_lookback
    let fvgs := find_fvgs bars
    let obs := find_order_blocks bars ob_displacement_bars ob_body_atr_mult atr_period
    let sweeps := find_liquidity_sweeps bars swing_lookback sweep_threshold_pct
    let vols := df.volume.getD (List.replicate bars.length 1)
    (List.range' 1 (bars.length - reversal_confirmation_bars - 1)).filterMap
      (rb_candidate df wick_to_body_ratio_min reversal_confirmation_bars
        key_level_proximity_pct volume_above_avg_mult swing_highs swing_lows
        fvgs obs sweeps vols)

/-- A significant wick event (src/wick/theory.py `WickEvent`). -/
structure WickEvent where
  ts : Ts
  direction : String
  midpoint : ℚ
  wick_high : ℚ
  wick_low : ℚ
  bar_index : ℕ
  respect : Option Bool
  swing_bar_index : Option ℕ
deriving DecidableEq, Repr, Inhabited

/-- Forward respect/disrespect resolution for a wick event: scan the next
`respect_bars_lookback` closes; `some false` at the first close beyond the
midpoint (against the wick), `some true` at the first close beyond the body's
far edge, `none` when neither triggers. `disFirst` is the midpoint-breach
test, `resFirst` the reversal test (direction-dependent). -/
def wick_respect_scan (bars : List Bar) (i respect_bars_lookback : ℕ)
    (disFirst resFirst : ℚ → Bool) : Option Bool :=
  let window := List.range' (i + 1)
    (min (i + 1 + respect_bars_lookback) bars.length - (i + 1))
  match window.find? (fun j =>
      disFirst (bars.getD j bar0).close || resFirst (bars.getD j bar0).close) with
  | some j => some (!disFirst (bars.getD j bar0).close)
  | none => none

/-- src/wick/theory.py `find_wick_events`: wick-dominant candles near swing
extrema with 50%-retracement midpoint and forward respect/disrespect. When
the lower-wick side qualifies but the pin-bar shape test fails, the whole
candle is skipped (the Python `continue` also skips the upper-wick side). -/
def find_wick_events (bars : List Bar) (wick_to_body_ratio_min : ℚ)
    (body_to_range_max : ℚ) (atr_min_mult : ℚ) (respect_bars_lookback : ℕ)
    (swing_lookback : ℕ) (atr_period : ℕ) : List WickEvent :=
  if bars.length < 3 then []
  else
    let (swing_highs, swing_lows) := find_swing_highs_lows bars swing_lookback
    let atr := atr_series (bars.map Bar.high) (bars.map Bar.low)
      (bars.map Bar.close) atr_period
    (List.range' 1 (bars.length - 2)).flatMap (fun i =>
      let b := bars.getD i bar0
      let body := |b.close - b.open'|
      let body_bottom := min b.open' b.close
      let body_top := max b.open' b.close
      let wick_upper := b.high - body_top
      let wick_lower := body_bottom - b.low
      let full_range := b.high - b.low
      if full_range ≤ 0 then []
      else
        let min_wick_size :=
          match atr.getD i none with
          | some a => if a > 0 ∧ atr_min_mult > 0 then atr_min_mult * a else 0
          | none => 0
        let pin_fail := decide (body_to_range_max ≠ 0) &&
          decide (body / full_range > body_to_range_max)
        let near_swing_low := swing_lows.any (fun s => s.bar_index == i) ||
          swing_lows.any (fun s => ((i : ℤ) - s.bar_index).natAbs ≤ swing_lookback * 2)
        let near_swing_high := swing_highs.any (fun s => s.bar_index == i) ||
          swing_highs.any (fun s => ((i : ℤ) - s.bar_index).natAbs ≤ swing_lookback * 2)
        let bearish_part :=
          if decide (wick_upper ≥ wick_to_body_ratio_min * body) &&
              decide (wick_upper ≥ min_wick_size) && near_swing_high then
            if pin_fail then []
            else
              let midpoint := body_top + (b.high - body_top) * (1/2)
              [⟨b.ts, "bearish", midpoint, b.high, b.low, i,
                wick_respect_scan bars i respect_bars_lookback
                  (fun c => decide (c > midpoint)) (fun c => decide (c < body_bottom)),
                if swing_highs.any (fun s => s.bar_index == i) then some i else none⟩]
          else []
        if decide (wick_lower ≥ wick_to_body_ratio_min * body) &&
            decide (wick_lower ≥ min_wick_size) && near_swing_low then
          if pin_fail then []
          else
            let midpoint := b.low + (body_bottom - b.low) * (1/2)
            ⟨b.ts, "bullish", midpoint, b.high, b.low, i,
              wick_respect_scan bars i respect_bars_lookback
                (fun c => decide (c < midpoint)) (fun c => decide (c > body_top)),
              if swing_lows.any (fun s => s.bar_index == i) then some i else none⟩
            :: bearish_part
        else bearish_part)

/-- The two killzone names returned by `get_killzone_name`. -/
inductive KZ where
  | london
  | newyork
deriving DecidableEq, Repr

/-- The Python string value of a killzone name. -/
def KZ.str : KZ → String
  | .london => "london"
  | .newyork => "newyork"

/-- Killzone window configuration: parsed (hour, minute) pairs for the
London/New-York start and end times plus the post-window extension. -/
structure KzCfg where
  london_start : ℕ × ℕ
  london_end : ℕ × ℕ
  newyork_start : ℕ × ℕ
  newyork_end : ℕ × ℕ
  extend_minutes_after : ℕ
deriving DecidableEq, Repr, Inhabited

/-- src/session/killzone.py `get_killzone_name`: `none` for tz-naive
timestamps; otherwise compare the NY-local minute of day against the two
windows (each closed, extended by `extend_minutes_after`, with overnight
wrap when the window end precedes its start). -/
def get_killzone_name (ts : Ts) (kz : KzCfg) : Option KZ :=
  if ts.tzAware = false then none
  else
    let m := ts.minuteOfDay
    let london_start_m := kz.london_start.1 * 60 + kz.london_start.2
    let london_end_m := kz.london_end.1 * 60 + kz.london_end.2
    let london_end_ext := london_end_m + kz.extend_minutes_after
    if london_start_m ≤ m ∧ m ≤ london_end_ext then some .london
    else if london_end_m < london_start_m ∧ (m ≥ london_start_m ∨ m ≤ london_end_ext) then
      some .london
    else
      let ny_start_m := kz.newyork_start.1 * 60 + kz.newyork_start.2
      let ny_end_m := kz.newyork_end.1 * 60 + kz.newyork_end.2
      let ny_end_ext := ny_end_m + kz.extend_minutes_after
      if ny_start_m ≤ m ∧ m ≤ ny_end_ext then some .newyork
      else if ny_end_m < ny_start_m ∧ (m ≥ ny_start_m ∨ m ≤ ny_end_ext) then
        some .newyork
      else none

/-- src/engine/htf_bias.py `get_htf_bias`: structural bias of a
higher-timeframe series — `none` for a missing/short series, otherwise
compare the latest close of the `lookback`-bar tail against the extreme
swing prices of that tail. -/
def get_htf_bias (df : Option DF) (lookback : ℕ) : Option String :=
  match df with
  | none => none
  | some df =>
    let bars := df.bars
    if bars.isEmpty ∨ bars.length < lookback then none
    else
      let tail := bars.drop (bars.length - lookback)
      let close := (tail.getD (tail.length - 1) bar0).close
      let (swing_highs, swing_lows) := find_swing_highs_lows tail (min 5 (lookback / 5))
      if swing_highs.isEmpty ∨ swing_lows.isEmpty then none
      else
        let last_sh := listMaxD (swing_highs.map SwingLevel.price) 0
        let last_sl := listMinD (swing_lows.map SwingLevel.price) 0
        if close > last_sh then some "bullish"
        else if close < last_sl then some "bearish"
        else none

/-- src/engine/htf_bias.py `htf_aligned`: the candidate direction is not
opposed by any required timeframe bias; strict mode demands an explicit
matching bias on every required timeframe, soft mode
(`treat_none_as_aligned`) lets an undetermined bias pass. -/
def htf_aligned (direction : String) (bias_1h bias_4h bias_daily : Option String)
    (require_1h require_4h require_daily treat_none_as_aligned : Bool) : Bool :=
  if direction ≠ "bullish" ∧ direction ≠ "bearish" then false
  else
    let ok := fun (bias : Option String) (req : Bool) =>
      if !req then true
      else if treat_none_as_aligned then bias == none || bias == some direction
      else bias != none && bias == some direction
    ok bias_1h require_1h && ok bias_4h require_4h && ok bias_daily require_daily

/-- The engine's output record (src/engine/setup_output.py `SetupRecord`). -/
structure SetupRecord where
  symbol : String
  timeframe : String
  direction : String
  entry_zone_high : ℚ
  entry_zone_low : ℚ
  stop : ℚ
  target : ℚ
  confluences : List String
  score : ℤ
  timestamp : Ts
  key_level_type : String
  key_level_price : ℚ
  rejection_candle_high : ℚ
  rejection_candle_low : ℚ
deriving DecidableEq, Repr, Inhabited

/-- The recognized configuration options (src/engine/confluence.py reads
them with `config.get(...)`; every key is modelled as present). -/
structure Config where
  rb_wick_to_body_ratio_min : ℚ
  rb_reversal_confirmation_bars : ℕ
  rb_key_level_proximity_pct : ℚ
  rb_volume_above_avg_mult : ℚ
  swing_lookback : ℕ
  atr_period : ℕ
  ob_displacement_bars : ℕ
  ob_body_atr_mult : ℚ
  sweep_threshold_pct : ℚ
  wick_ratio_min : ℚ
  wick_body_to_range_max : ℚ
  wick_atr_min_mult : ℚ
  wick_respect_bars_lookback : ℕ
  kz : KzCfg
  w_rejection_block : ℤ
  w_killzone : ℤ
  w_wick_respect : ℤ
  w_order_block : ℤ
  w_fvg : ℤ
  w_liquidity_sweep : ℤ
  w_swing_level : ℤ
  w_htf_aligned : ℤ
  min_score_to_alert : ℤ
  require_reversal_confirmed : Bool
  stop_buffer_points_nq : ℚ
  stop_buffer_points_es : ℚ
  volume_buffer_extra_nq : ℚ
  volume_buffer_extra_es : ℚ
  cap_volume_above_avg_mult : ℚ
  min_risk_points_nq : ℚ
  max_risk_points_nq : ℚ
  min_risk_points_es : ℚ
  max_risk_points_es : ℚ
  entry_fib_in_wick : ℚ
  entry_zone_tolerance_points_nq : ℚ
  entry_zone_tolerance_points_es : ℚ
  target_rr : ℚ
  htf_enabled : Bool
  htf_lookback_bars : ℕ
  require_1h : Bool
  require_4h : Bool
  require_daily : Bool
  treat_none_as_aligned : Bool
deriving Inhabited

/-- `pat` occurs as a contiguous subsequence of `s`. -/
def contains_seq (pat s : List Char) : Bool :=
  (List.range (s.length + 1)).any (fun k => pat.isPrefixOf (s.drop k))

/-- `"NQ" in symbol.upper()` (src/engine/confluence.py line 173). -/
def symbol_is_nq (symbol : String) : Bool :=
  contains_seq "NQ".toList (symbol.toList.map Char.toUpper)

/-- src/engine/confluence.py `_capped_target`: target at
`entry ± |entry-stop| * target_rr` along the trade direction. -/
def capped_target (entry stop : ℚ) (direction : String) (cfg : Config) : ℚ :=
  let risk := |entry - stop|
  let reward := risk * cfg.target_rr
  if direction = "bullish" then entry + reward else entry - reward

/-- The wick-respect confluence test inside `build_setups` (lines 131-139):
scan `wick_events` in order, skipping other-direction events; at the first
same-direction event within ±3 bars of the block, add the weight exactly
when that event resolved to `respect=True`, then stop scanning. -/
def wick_respect_hit (wick_events : List WickEvent) (rb : RejectionBlock) : Bool :=
  match wick_events.find? (fun we =>
      we.direction == rb.direction &&
      (we.bar_index == rb.bar_index ||
        ((we.bar_index : ℤ) - rb.bar_index).natAbs ≤ 3)) with
  | some we => we.respect == some true
  | none => false

/-- The key-level score contribution and confluence tags of `build_setups`
lines 141-153, folded in list order over `rb.key_levels_nearby`. -/
def key_level_fold (cfg : Config) (ks : List String) : ℤ × List String :=
  ks.foldl (fun (acc : ℤ × List String) k =>
    if k = "order_block" then (acc.1 + cfg.w_order_block, acc.2 ++ ["Order Block"])
    else if k = "fvg" then (acc.1 + cfg.w_fvg, acc.2 ++ ["FVG"])
    else if k = "liquidity_sweep" then
      (acc.1 + cfg.w_liquidity_sweep, acc.2 ++ ["Liquidity sweep"])
    else if k = "swing_high" ∨ k = "swing_low" then
      (acc.1 + cfg.w_swing_level, acc.2 ++ ["Swing level"])
    else acc) (0, [])

/-- Trailing 20-bar volume average read by `build_setups` line 189:
`rolling(20).mean().iloc[i]` when `i ≥ 20`, else the bar's own volume
(for `20 ≤ i` the rolling mean is always defined; its impossible undefined
branch falls back to the bar's own volume). -/
def vol_avg_at (vols : List ℚ) (i : ℕ) : ℚ :=
  if 20 ≤ i then (rollingMeanAt vols 20 i).getD (vols.getD i 0)
  else vols.getD i 0

/-- Stop-buffer width of `build_setups` lines 185-191: the per-class base
buffer, widened by the per-class extra when the rejection candle's volume
is at or above `cap_volume_above_avg_mult` times its trailing average. -/
def stop_buffer (cfg : Config) (df : DF) (is_nq : Bool) (i : ℕ) : ℚ :=
  let base := if is_nq then cfg.stop_buffer_points_nq else cfg.stop_buffer_points_es
  let extra := if is_nq then cfg.volume_buffer_extra_nq else cfg.volume_buffer_extra_es
  match df.volume with
  | none => base
  | some vols =>
    if i < df.bars.length then
      let vol := vols.getD i 0
      let va := vol_avg_at vols i
      if va > 0 ∧ vol ≥ cfg.cap_volume_above_avg_mult * va then base + extra
      else base
    else base

/-- Entry retracement level of `build_setups` lines 174-183: the
`entry_fib_in_wick` point measured from the wick extreme toward the body
edge on the dominant wick side. -/
def entry_level_of (cfg : Config) (rb : RejectionBlock) : ℚ :=
  let wick_range := rb.zone_high - rb.zone_low
  if rb.direction = "bullish" then rb.zone_low + cfg.entry_fib_in_wick * wick_range
  else rb.zone_high - cfg.entry_fib_in_wick * wick_range

/-- Stop price of `build_setups` lines 192-195. -/
def stop_of (cfg : Config) (df : DF) (is_nq : Bool) (rb : RejectionBlock) : ℚ :=
  if rb.direction = "bullish" then rb.candle_low - stop_buffer cfg df is_nq rb.bar_index
  else rb.candle_high + stop_buffer cfg df is_nq rb.bar_index

/-- Pre-HTF confluence score of one rejection block (`build_setups` lines
124-153): the rejection-block weight, plus the killzone weight (the block
reached this point only inside a killzone, and `if kz_name:` is then always
truthy), plus the wick-respect weight when the scan hits, plus the
key-level weights. -/
def rb_score (cfg : Config) (wick_events : List WickEvent)
    (rb : RejectionBlock) : ℤ :=
  let score1 := cfg.w_rejection_block + cfg.w_killzone
  let score2 := if wick_respect_hit wick_events rb then
    score1 + cfg.w_wick_respect else score1
  score2 + (key_level_fold cfg rb.key_levels_nearby).1

/-- The confluence tag list accumulated alongside `rb_score`
(`build_setups` lines 125-169), with the HTF tag appended when aligned. -/
def rb_confluences (cfg : Config) (wick_events : List WickEvent)
    (rb : RejectionBlock) (kz_name : KZ) (aligned : Bool) : List String :=
  let conf1 := ["Rejection Block"] ++ ["Killzone (" ++ kz_name.str ++ ")"]
  let conf2 := if wick_respect_hit wick_events rb then
    conf1 ++ ["Wick 50% respect"] else conf1
  let conf3 := conf2 ++ (key_level_fold cfg rb.key_levels_nearby).2
  if aligned then conf3 ++ ["HTF aligned (1H+4H+daily)"] else conf3

/-- Risk in points of one candidate (`build_setups` line 196):
`|entry_mid - stop|` where `entry_mid` is the entry retracement level. -/
def risk_points_of (cfg : Config) (df : DF) (symbol : String)
    (rb : RejectionBlock) : ℚ :=
  |entry_level_of cfg rb - stop_of cfg df (symbol_is_nq symbol) rb|

/-- Per-symbol-class minimum risk (`build_setups` line 197). -/
def min_risk_of (cfg : Config) (symbol : String) : ℚ :=
  if symbol_is_nq symbol then cfg.min_risk_points_nq else cfg.min_risk_points_es

/-- Per-symbol-class maximum risk (`build_setups` line 198). -/
def max_risk_of (cfg : Config) (symbol : String) : ℚ :=
  if symbol_is_nq symbol then cfg.max_risk_points_nq else cfg.max_risk_points_es

/-- The `SetupRecord` built at `build_setups` lines 206-221 for a
surviving candidate. -/
def setup_emitted (df : DF) (symbol timeframe : String) (cfg : Config)
    (wick_events : List WickEvent) (aligned : Bool) (rb : RejectionBlock)
    (kz_name : KZ) : SetupRecord :=
  let is_nq := symbol_is_nq symbol
  let entry_level := entry_level_of cfg rb
  let tol := if is_nq then cfg.entry_zone_tolerance_points_nq
    else cfg.entry_zone_tolerance_points_es
  let stop := stop_of cfg df is_nq rb
  { symbol := symbol
    timeframe := timeframe
    direction := rb.direction
    entry_zone_high := entry_level + tol
    entry_zone_low := entry_level - tol
    stop := stop
    target := capped_target entry_level stop rb.direction cfg
    confluences := rb_confluences cfg wick_events rb kz_name aligned
    score := if aligned then rb_score cfg wick_events rb + cfg.w_htf_aligned
      else rb_score cfg wick_events rb
    timestamp := rb.timestamp
    key_level_type := rb.key_levels_nearby.headD "Rejection Block"
    key_level_price := entry_level
    rejection_candle_high := rb.candle_high
    rejection_candle_low := rb.candle_low }

/-- The per-rejection-block body of the `build_setups` loop (lines
106-221). `aligned` is the caller-computed value of
`htf_cfg["enabled"] and htf_aligned(...)` (lines 159-167): the HTF block
only adds the `htf_aligned` weight when it holds. Produces the emitted
`SetupRecord`, or `none` for a discarded candidate. -/
def process_rb (df : DF) (symbol timeframe : String) (cfg : Config)
    (wick_events : List WickEvent) (aligned : Bool) (rb : RejectionBlock) :
    Option SetupRecord :=
  if rb.bar_index ≥ df.bars.length then none
  else if cfg.require_reversal_confirmed ∧ rb.reversal_confirmed = false then none
  else
    match get_killzone_name rb.timestamp cfg.kz with
    | none => none
    | some kz_name =>
      if rb_score cfg wick_events rb < cfg.min_score_to_alert then none
      else if risk_points_of cfg df symbol rb < min_risk_of cfg symbol ∨
          risk_points_of cfg df symbol rb > max_risk_of cfg symbol then none
      else some (setup_emitted df symbol timeframe cfg wick_events aligned rb kz_name)

/-- src/engine/confluence.py `build_setups`: run the rejection-block and
wick-event detectors on the primary series, compute the three HTF biases,
and emit one `SetupRecord` per surviving rejection block. -/
def build_setups (df : DF) (symbol timeframe : String) (cfg : Config)
    (df_1h df_4h df_daily : Option DF) : List SetupRecord :=
  let rbs := find_rejection_blocks df cfg.rb_wick_to_body_ratio_min
    cfg.rb_reversal_confirmation_bars cfg.rb_key_level_proximity_pct
    cfg.rb_volume_above_avg_mult cfg.swing_lookback cfg.atr_period
    cfg.ob_displacement_bars cfg.ob_body_atr_mult cfg.sweep_threshold_pct
  let wick_events := find_wick_events df.bars cfg.wick_ratio_min
    cfg.wick_body_to_range_max cfg.wick_atr_min_mult
    cfg.wick_respect_bars_lookback cfg.swing_lookback cfg.atr_period
  let bias_1h := if df_1h.isSome ∧ cfg.htf_enabled then
    get_htf_bias df_1h cfg.htf_lookback_bars else none
  let bias_4h := if df_4h.isSome ∧ cfg.htf_enabled then
    get_htf_bias df_4h cfg.htf_lookback_bars else none
  let bias_daily := if df_daily.isSome ∧ cfg.htf_enabled then
    get_htf_bias df_daily
      (min cfg.htf_lookback_bars ((df_daily.getD ⟨[], none⟩).bars.length))
    else none
  rbs.filterMap (fun rb =>
    process_rb df symbol timeframe cfg wick_events
      (cfg.htf_enabled && htf_aligned rb.direction bias_1h bias_4h bias_daily
        cfg.require_1h cfg.require_4h cfg.require_daily cfg.treat_none_as_aligned)
      rb)

/-- Result of one simulated trade (src/backtest.py `TradeResult`). -/
structure TradeResult where
  setup : SetupRecord
  outcome : String
  exit_price : ℚ
  bars_held : ℕ
  pnl_points : ℚ
deriving DecidableEq, Repr, Inhabited

/-- Fill search of src/backtest.py `_simulate_trade` lines 68-82: the first
bar after the setup bar, within `max_bars_to_fill`, whose high/low range
overlaps the entry zone. -/
def find_entry_bar (bars : List Bar) (setup : SetupRecord)
    (setup_bar_index max_bars_to_fill : ℕ) : Option ℕ :=
  let window := List.range' (setup_bar_index + 1)
    (min (setup_bar_index + 1 + max_bars_to_fill) bars.length - (setup_bar_index + 1))
  window.find? (fun j =>
    let hi := (bars.getD j bar0).high
    let lo := (bars.getD j bar0).low
    if setup.direction = "bullish" then
      decide (lo ≤ setup.entry_zone_high) && decide (hi ≥ setup.entry_zone_low)
    else
      decide (hi ≥ setup.entry_zone_low) && decide (lo ≤ setup.entry_zone_high))

/-- Outcome scan of src/backtest.py `_simulate_trade` lines 84-97, walking
the bars from the fill bar on (`held` counts bars since the fill bar): the
stop check runs before the target check on every bar; exhausting the bars
gives `none`. -/
def sim_scan (setup : SetupRecord) (entry_price : ℚ) (held : ℕ) :
    List Bar → Option TradeResult
  | [] => none
  | b :: rest =>
    if setup.direction = "bullish" then
      if b.low ≤ setup.stop then
        some ⟨setup, "loss", setup.stop, held, setup.stop - entry_price⟩
      else if b.high ≥ setup.target then
        some ⟨setup, "win", setup.target, held, setup.target - entry_price⟩
      else sim_scan setup entry_price (held + 1) rest
    else
      if b.high ≥ setup.stop then
        some ⟨setup, "loss", setup.stop, held, entry_price - setup.stop⟩
      else if b.low ≤ setup.target then
        some ⟨setup, "win", setup.target, held, entry_price - setup.target⟩
      else sim_scan setup entry_price (held + 1) rest

/-- src/backtest.py `_simulate_trade`: entry at the zone midpoint on the
first bar that retests the entry zone; then the stop/target race with the
stop checked first on every bar. `none` when there is no fill within
`max_bars_to_fill` bars or when neither exit is hit before the data ends. -/
def simulate_trade (bars : List Bar) (setup : SetupRecord)
    (setup_bar_index max_bars_to_fill : ℕ) : Option TradeResult :=
  let entry_price := (setup.entry_zone_high + setup.entry_zone_low) / 2
  match find_entry_bar bars setup setup_bar_index max_bars_to_fill with
  | none => none
  | some entry_bar => sim_scan setup entry_price 0 (bars.drop entry_bar)

/-- The score/confluence bonus applied when the HTF alignment predicate
holds (`build_setups` lines 168-169). -/
def htf_bonus (cfg : Config) (s : SetupRecord) : SetupRecord :=
  { s with
    score := s.score + cfg.w_htf_aligned
    confluences := s.confluences ++ ["HTF aligned (1H+4H+daily)"] }

def sample_ts : Ts := ⟨true, 150⟩

def sample_bar (o h l c : ℚ) : Bar := ⟨sample_ts, o, h, l, c⟩

/-- An 8-bar series stamped 02:30 New York (inside the London killzone),
with lower-wick rejection candles at indices 3, 4 and 5; index 5 confirms
on the next close. -/
def sample_bars : List Bar :=
  [sample_bar 10000 10100 9900 10050,
   sample_bar 10050 10110 10040 10100,
   sample_bar 10000 10120 10000 10100,
   sample_bar 10000 10020 9800 10010,
   sample_bar 9860 9870 9700 9850,
   sample_bar 9890 9905 9750 9900,
   sample_bar 9950 10010 9940 10000,
   sample_bar 10000 10050 9980 10020]

def sample_df : DF := ⟨sample_bars, none⟩

/-- The default killzone windows (London 02:00-05:00, NY 07:00-10:00,
30-minute extension). -/
def sample_kz : KzCfg := ⟨(2, 0), (5, 0), (7, 0), (10, 0), 30⟩

/-- A concrete configuration exercising the full pipeline on `sample_bars`. -/
def sample_cfg : Config :=
  { rb_wick_to_body_ratio_min := 2
    rb_reversal_confirmation_bars := 1
    rb_key_level_proximity_pct := 0
    rb_volume_above_avg_mult := 1
    swing_lookback := 1
    atr_period := 1
    ob_displacement_bars := 2
    ob_body_atr_mult := 1/2
    sweep_threshold_pct := 1/50
    wick_ratio_min := 2
    wick_body_to_range_max := 0
    wick_atr_min_mult := 0
    wick_respect_bars_lookback := 10
    kz := sample_kz
    w_rejection_block := 1
    w_killzone := 2
    w_wick_respect := 2
    w_order_block := 1
    w_fvg := 1
    w_liquidity_sweep := 1
    w_swing_level := 1
    w_htf_aligned := 2
    min_score_to_alert := 4
    require_reversal_confirmed := true
    stop_buffer_points_nq := 2
    stop_buffer_points_es := 1
    volume_buffer_extra_nq := 2
    volume_buffer_extra_es := 1
    cap_volume_above_avg_mult := 6/5
    min_risk_points_nq := 3
    max_risk_points_nq := 100000
    min_risk_points_es := 3
    max_risk_points_es := 100000
    entry_fib_in_wick := 1/2
    entry_zone_tolerance_points_nq := 2
    entry_zone_tolerance_points_es := 1
    target_rr := 5
    htf_enabled := false
    htf_lookback_bars := 50
    require_1h := true
    require_4h := true
    require_daily := true
    treat_none_as_aligned := true }

/-- The wick events the pipeline finds on `sample_bars`: bullish at bars 3
(resolved disrespect), 4 (respect) and 5 (respect). -/
def sample_wick3 : WickEvent := ⟨sample_ts, "bullish", 9900, 10020, 9800, 3, some false, none⟩

def sample_wick4 : WickEvent := ⟨sample_ts, "bullish", 9775, 9870, 9700, 4, some true, some 4⟩

def sample_wick5 : WickEvent := ⟨sample_ts, "bullish", 9820, 9905, 9750, 5, some true, none⟩

/-- The rejection blocks on `sample_bars`: bar 3 (unconfirmed), bar 4
(confirmed, no key level), bar 5 (confirmed, FVG-tagged). -/
def sample_rb3 : RejectionBlock :=
  ⟨sample_ts, "bullish", 10000, 9800, 10020, 9800, 3, ["fvg"], false, true⟩

def sample_rb4 : RejectionBlock :=
  ⟨sample_ts, "bullish", 9850, 9700, 9870, 9700, 4, [], true, true⟩

def sample_rb5 : RejectionBlock :=
  ⟨sample_ts, "bullish", 9890, 9750, 9905, 9750, 5, ["fvg"], true, true⟩

/-- The single record `build_setups` emits on the sample input (from the
block at bar 5; bar 3 lacks reversal confirmation and bar 4 scores 3 < 4). -/
def sample_setup : SetupRecord :=
  { symbol := "NQ=F"
    timeframe := "5m"
    direction := "bullish"
    entry_zone_high := 9822
    entry_zone_low := 9818
    stop := 9748
    target := 10180
    confluences := ["Rejection Block", "Killzone (london)", "FVG"]
    score := 4
    timestamp := sample_ts
    key_level_type := "fvg"
    key_level_price := 9820
    rejection_candle_high := 9905
    rejection_candle_low := 9750 }

def naive_ts : Ts := ⟨false, 150⟩

/-- The sample series with a tz-naive index. -/
def sample_naive_df : DF :=
  ⟨sample_bars.map (fun b => { b with ts := naive_ts }), none⟩

/-- A bar with the given high (spec §8 swing example). -/
def c7_bar (h : ℚ) : Bar := ⟨sample_ts, h, h, 0, h⟩

/-- Highs `[1,2,3,4,5,10,5,4,3,2,1]` from the spec's swing example. -/
def c7_bars : List Bar :=
  [c7_bar 1, c7_bar 2, c7_bar 3, c7_bar 4, c7_bar 5, c7_bar 10,
   c7_bar 5, c7_bar 4, c7_bar 3, c7_bar 2, c7_bar 1]

/-- A 4-bar series whose index-1 candle is a doji with equal-magnitude
upper and lower wicks, both of which trivially meet the ratio threshold. -/
def c8_bars : List Bar :=
  [⟨sample_ts, 100, 101, 99, 100⟩,
   ⟨sample_ts, 100, 101, 99, 100⟩,
   ⟨sample_ts, 100, 101, 99, 100⟩,
   ⟨sample_ts, 100, 101, 99, 100⟩]

def c8_df : DF := ⟨c8_bars, none⟩

/-- The per-bar stop condition of the outcome scan (stop checked first). -/
def sim_adverse (setup : SetupRecord) (b : Bar) : Prop :=
  if setup.direction = "bullish" then b.low ≤ setup.stop else b.high ≥ setup.stop

/-- The per-bar target condition of the outcome scan. -/
def sim_favorable (setup : SetupRecord) (b : Bar) : Prop :=
  if setup.direction = "bullish" then b.high ≥ setup.target else b.low ≤ setup.target

instance (setup : SetupRecord) (b : Bar) : Decidable (sim_adverse setup b) := by
  unfold sim_adverse; infer_instance

instance (setup : SetupRecord) (b : Bar) : Decidable (sim_favorable setup b) := by
  unfold sim_favorable; infer_instance

/-- A bullish setup whose fill bar reaches both stop and target at once. -/
def c3_setup : SetupRecord :=
  { symbol := "NQ=F"
    timeframe := "5m"
    direction := "bullish"
    entry_zone_high := 101
    entry_zone_low := 99
    stop := 95
    target := 105
    confluences := []
    score := 0
    timestamp := sample_ts
    key_level_type := "Rejection Block"
    key_level_price := 100
    rejection_candle_high := 101
    rejection_candle_low := 99 }

/-- Two bars: the setup bar and one wide bar that retests the entry zone
and simultaneously reaches both the stop and the target. -/
def c3_bars : List Bar :=
  [⟨sample_ts, 100, 100, 100, 100⟩,
   ⟨sample_ts, 100, 106, 94, 100⟩]

/-- A bar for the liquidity-sweep counterexample (open = close). -/
def c5_bar (h l c : ℚ) : Bar := ⟨sample_ts, c, h, l, c⟩

/-- Swing highs at bars 1 (110) and 3 (105); bar 5 breaks above both and
closes back below both. -/
def c5_bars : List Bar :=
  [c5_bar 100 99 100,
   c5_bar 110 98 99,
   c5_bar 100 97 98,
   c5_bar 105 96 97,
   c5_bar 100 95 96,
   c5_bar 111 94 95,
   c5_bar 100 93 94,
   c5_bar 100 92 93]

/-- Destructor for an emitted candidate: everything `process_rb` guarantees
about a `some` result, including the exact record emitted. -/
lemma process_rb_some_dest
    {df : DF} {symbol timeframe : String} {cfg : Config}
    {wick_events : List WickEvent} {aligned : Bool} {rb : RejectionBlock}
    {s : SetupRecord}
    (h : process_rb df symbol timeframe cfg wick_events aligned rb = some s) :
    rb.bar_index < df.bars.length ∧
    (cfg.require_reversal_confirmed = true → rb.reversal_confirmed = true) ∧
    cfg.min_score_to_alert ≤ rb_score cfg wick_events rb ∧
    min_risk_of cfg symbol ≤ risk_points_of cfg df symbol rb ∧
    risk_points_of cfg df symbol rb ≤ max_risk_of cfg symbol ∧
    ∃ kz_name, get_killzone_name rb.timestamp cfg.kz = some kz_name ∧
      s = setup_emitted df symbol timeframe cfg wick_events aligned rb kz_name := by
  unfold process_rb at h
  split at h
  · simp at h
  next h1 =>
    split at h
    · simp at h
    next h2 =>
      split at h
      · simp at h
      next kz_name heq =>
        split at h
        · simp at h
        next h3 =>
          split at h
          · simp at h
          next h4 =>
            rcases not_or.mp h4 with ⟨ha, hb⟩
            refine ⟨by omega, ?_, by omega, not_lt.mp ha, not_lt.mp hb,
              kz_name, heq, (Option.some.inj h).symm⟩
            intro hr
            by_contra hrev
            exact h2 ⟨hr, by simpa using hrev⟩

/-- The midpoint of the emitted entry zone is the entry retracement level. -/
lemma setup_emitted_entry_mid (df : DF) (symbol timeframe : String)
    (cfg : Config) (wick_events : List WickEvent) (aligned : Bool)
    (rb : RejectionBlock) (kz_name : KZ) :
    ((setup_emitted df symbol timeframe cfg wick_events aligned rb kz_name).entry_zone_high +
      (setup_emitted df symbol timeframe cfg wick_events aligned rb kz_name).entry_zone_low) / 2 =
      entry_level_of cfg rb := by
  simp only [setup_emitted]
  ring

/-- The stop of the emitted record is the computed stop price. -/
lemma setup_emitted_stop (df : DF) (symbol timeframe : String)
    (cfg : Config) (wick_events : List WickEvent) (aligned : Bool)
    (rb : RejectionBlock) (kz_name : KZ) :
    (setup_emitted df symbol timeframe cfg wick_events aligned rb kz_name).stop =
      stop_of cfg df (symbol_is_nq symbol) rb := by
  simp only [setup_emitted]

/-- C1: For every bar series, symbol, timeframe, and configuration, every
`SetupRecord` returned by `build_setups` has risk `|entry midpoint − stop|`
within the configured `[min_risk, max_risk]` band for its symbol class
(NQ vs ES); a candidate whose risk falls outside the band is never emitted. -/
theorem build_setups_risk_within_band
    (df : DF) (symbol timeframe : String) (cfg : Config)
    (df_1h df_4h df_daily : Option DF) (s : SetupRecord)
    (hs : s ∈ build_setups df symbol timeframe cfg df_1h df_4h df_daily) :
    min_risk_of cfg symbol ≤ |(s.entry_zone_high + s.entry_zone_low) / 2 - s.stop| ∧
    |(s.entry_zone_high + s.entry_zone_low) / 2 - s.stop| ≤ max_risk_of cfg symbol := by
  simp only [build_setups, List.mem_filterMap] at hs
  obtain ⟨rb, _, h⟩ := hs
  obtain ⟨_, _, _, hmin, hmax, kz_name, _, hset⟩ := process_rb_some_dest h
  subst hset
  rw [setup_emitted_entry_mid, setup_emitted_stop]
  exact ⟨by simpa [risk_points_of] using hmin, by simpa [risk_points_of] using hmax⟩

/-- Changing only the `aligned` flag maps the emitted record through the
HTF score/confluence bonus and never changes whether a record is emitted. -/
lemma process_rb_aligned_eq (df : DF) (symbol timeframe : String)
    (cfg : Config) (wick_events : List WickEvent) (rb : RejectionBlock) :
    process_rb df symbol timeframe cfg wick_events true rb =
      (process_rb df symbol timeframe cfg wick_events false rb).map (htf_bonus cfg) := by
  by_cases h1 : rb.bar_index ≥ df.bars.length
  · simp [process_rb, h1]
  by_cases h2 : cfg.require_reversal_confirmed ∧ rb.reversal_confirmed = false
  · simp [process_rb, h1, h2]
  rcases hkz : get_killzone_name rb.timestamp cfg.kz with _ | kz
  · simp [process_rb, h1, h2, hkz]
  by_cases h3 : rb_score cfg wick_events rb < cfg.min_score_to_alert
  · simp [process_rb, h1, h2, hkz, h3]
  by_cases h4 : risk_points_of cfg df symbol rb < min_risk_of cfg symbol ∨
      risk_points_of cfg df symbol rb > max_risk_of cfg symbol
  · simp [process_rb, h1, h2, hkz, h3, h4]
  · simp [process_rb, h1, h2, hkz, h3, h4, setup_emitted, rb_confluences, htf_bonus]

/-- C2: For every input to `build_setups`, failure of the HTF alignment
predicate alone never removes a rejection-block candidate that has already
met `min_score`: with HTF bias enabled, a passing alignment predicate only
adds the `htf_aligned` weight (and tag), and a failing one never discards
the candidate — emission is identical for both alignment outcomes. -/
theorem htf_alignment_scoring_bonus_only
    (df : DF) (symbol timeframe : String) (cfg : Config)
    (wick_events : List WickEvent) (rb : RejectionBlock) :
    (process_rb df symbol timeframe cfg wick_events true rb).isSome =
      (process_rb df symbol timeframe cfg wick_events false rb).isSome ∧
    ∀ s, process_rb df symbol timeframe cfg wick_events false rb = some s →
      process_rb df symbol timeframe cfg wick_events true rb = some (htf_bonus cfg s) := by
  constructor
  · rw [process_rb_aligned_eq]
    cases process_rb df symbol timeframe cfg wick_events false rb <;> rfl
  · intro s hs
    rw [process_rb_aligned_eq, hs]
    rfl

section SampleEval

attribute [local semireducible] Rat.add Rat.sub Rat.mul Rat.inv

lemma sample_wicks : find_wick_events sample_bars 2 0 0 10 1 1 =
    [sample_wick3, sample_wick4, sample_wick5] := by
  decide

lemma sample_rbs : find_rejection_blocks sample_df 2 1 0 1 1 1 2 (1/2) (1/50) =
    [sample_rb3, sample_rb4, sample_rb5] := by
  decide

lemma sample_build :
    build_setups sample_df "NQ=F" "5m" sample_cfg none none none = [sample_setup] := by
  decide

lemma sample_setup_mem :
    sample_setup ∈ build_setups sample_df "NQ=F" "5m" sample_cfg none none none := by
  rw [sample_build]
  exact List.mem_singleton_self _

end SampleEval

/-- Witness for C1: the band check holds on the concrete emitted record. -/
theorem build_setups_risk_within_band_witness :
    min_risk_of sample_cfg "NQ=F" ≤
      |(sample_setup.entry_zone_high + sample_setup.entry_zone_low) / 2 - sample_setup.stop| ∧
    |(sample_setup.entry_zone_high + sample_setup.entry_zone_low) / 2 - sample_setup.stop| ≤
      max_risk_of sample_cfg "NQ=F" :=
  build_setups_risk_within_band sample_df "NQ=F" "5m" sample_cfg none none none
    sample_setup sample_setup_mem

/-- Witness for C2: alignment outcome does not change emission for the
sample candidate, and a pass only adds the bonus. -/
theorem htf_alignment_scoring_bonus_only_witness :
    (process_rb sample_df "NQ=F" "5m" sample_cfg
      [sample_wick3, sample_wick4, sample_wick5] true sample_rb5).isSome =
      (process_rb sample_df "NQ=F" "5m" sample_cfg
        [sample_wick3, sample_wick4, sample_wick5] false sample_rb5).isSome ∧
    ∀ s, process_rb sample_df "NQ=F" "5m" sample_cfg
        [sample_wick3, sample_wick4, sample_wick5] false sample_rb5 = some s →
      process_rb sample_df "NQ=F" "5m" sample_cfg
        [sample_wick3, sample_wick4, sample_wick5] true sample_rb5 = some (htf_bonus sample_cfg s) :=
  htf_alignment_scoring_bonus_only sample_df "NQ=F" "5m" sample_cfg
    [sample_wick3, sample_wick4, sample_wick5] sample_rb5

/-- Every tag contributed by the key-level loop is one of its four fixed
strings. -/
lemma key_level_fold_tags (cfg : Config) (ks : List String) :
    ∀ t ∈ (key_level_fold cfg ks).2,
      t ∈ ["Order Block", "FVG", "Liquidity sweep", "Swing level"] := by
  suffices h : ∀ (acc : ℤ × List String) t,
      t ∈ (ks.foldl (fun acc k =>
        if k = "order_block" then (acc.1 + cfg.w_order_block, acc.2 ++ ["Order Block"])
        else if k = "fvg" then (acc.1 + cfg.w_fvg, acc.2 ++ ["FVG"])
        else if k = "liquidity_sweep" then
          (acc.1 + cfg.w_liquidity_sweep, acc.2 ++ ["Liquidity sweep"])
        else if k = "swing_high" ∨ k = "swing_low" then
          (acc.1 + cfg.w_swing_level, acc.2 ++ ["Swing level"])
        else acc) acc).2 →
      t ∈ acc.2 ∨ t ∈ ["Order Block", "FVG", "Liquidity sweep", "Swing level"] by
    intro t ht
    rcases h (0, []) t ht with h' | h'
    · simp at h'
    · exact h'
  induction ks with
  | nil => intro acc t ht; exact Or.inl ht
  | cons k ks ih =>
    intro acc t ht
    rw [List.foldl_cons] at ht
    rcases ih _ t ht with h' | h'
    · split_ifs at h' with h1 h2 h3 h4
      all_goals first
        | exact Or.inl h'
        | (rcases List.mem_append.mp h' with h'' | h''
           · exact Or.inl h''
           · right; simp at h''; simp [h''])
    · exact Or.inr h'

/-- The wick-respect tag appears in the confluence list exactly when the
wick-respect scan hits. -/
lemma wick_tag_mem_confluences (cfg : Config) (wick_events : List WickEvent)
    (rb : RejectionBlock) (kz_name : KZ) (aligned : Bool) :
    ("Wick 50% respect" ∈ rb_confluences cfg wick_events rb kz_name aligned) ↔
      wick_respect_hit wick_events rb = true := by
  have hkl := key_level_fold_tags cfg rb.key_levels_nearby
  unfold rb_confluences
  cases kz_name <;> cases aligned <;>
    by_cases hhit : wick_respect_hit wick_events rb <;>
    simp [hhit, KZ.str] <;>
    intro hmem <;>
    · have h4 := hkl _ hmem
      simp at h4

/-- C4 (amended): the wick-respect weight/tag is applied to an emitted
record if and only if the FIRST same-direction wick event within ±3 bars of
the block, in detector output order, resolved to respect = true; later
qualifying events are never consulted. -/
theorem wick_respect_tag_iff_first_match (df : DF) (symbol timeframe : String)
    (cfg : Config) (wick_events : List WickEvent) (aligned : Bool)
    (rb : RejectionBlock) (s : SetupRecord)
    (h : process_rb df symbol timeframe cfg wick_events aligned rb = some s) :
    "Wick 50% respect" ∈ s.confluences ↔
      ∃ we, wick_events.find? (fun we =>
          we.direction == rb.direction &&
          (we.bar_index == rb.bar_index ||
            ((we.bar_index : ℤ) - rb.bar_index).natAbs ≤ 3)) = some we ∧
        we.respect = some true := by
  obtain ⟨-, -, -, -, -, kz_name, -, hset⟩ := process_rb_some_dest h
  subst hset
  have hconf : (setup_emitted df symbol timeframe cfg wick_events aligned rb kz_name).confluences =
      rb_confluences cfg wick_events rb kz_name aligned := rfl
  rw [hconf, wick_tag_mem_confluences]
  unfold wick_respect_hit
  rcases hf : wick_events.find? (fun we =>
      we.direction == rb.direction &&
      (we.bar_index == rb.bar_index ||
        ((we.bar_index : ℤ) - rb.bar_index).natAbs ≤ 3)) with _ | we
  · simp [hf]
  · simp [hf]

/-- C4 counterexample: on the sample input, the emitted record from the
bar-5 rejection block carries no wick-respect tag although a same-direction
wick event within ±3 bars (bar 4) resolved to respect = true — the scan
stopped at the earlier bar-3 event, which resolved to respect = false. -/
theorem wick_respect_exists_not_sufficient :
    build_setups sample_df "NQ=F" "5m" sample_cfg none none none = [sample_setup] ∧
    sample_rb5 ∈ find_rejection_blocks sample_df 2 1 0 1 1 1 2 (1/2) (1/50) ∧
    sample_setup.timestamp = sample_rb5.timestamp ∧
    (∃ we ∈ find_wick_events sample_bars 2 0 0 10 1 1,
      we.direction = sample_rb5.direction ∧
      ((we.bar_index : ℤ) - sample_rb5.bar_index).natAbs ≤ 3 ∧
      we.respect = some true) ∧
    "Wick 50% respect" ∉ sample_setup.confluences := by
  refine ⟨sample_build, ?_, rfl, ⟨sample_wick4, ?_, rfl, by decide, rfl⟩, by decide⟩
  · rw [sample_rbs]; simp
  · rw [sample_wicks]; simp

section SampleEval2

attribute [local semireducible] Rat.add Rat.sub Rat.mul Rat.inv

lemma sample_process_rb5 :
    process_rb sample_df "NQ=F" "5m" sample_cfg
      [sample_wick3, sample_wick4, sample_wick5] false sample_rb5 = some sample_setup := by
  decide

end SampleEval2

/-- Witness for the amended C4 theorem at the sample candidate. -/
theorem wick_respect_tag_iff_first_match_witness :
    "Wick 50% respect" ∈ sample_setup.confluences ↔
      ∃ we, ([sample_wick3, sample_wick4, sample_wick5].find? (fun we =>
          we.direction == sample_rb5.direction &&
          (we.bar_index == sample_rb5.bar_index ||
            ((we.bar_index : ℤ) - sample_rb5.bar_index).natAbs ≤ 3))) = some we ∧
        we.respect = some true :=
  wick_respect_tag_iff_first_match sample_df "NQ=F" "5m" sample_cfg
    [sample_wick3, sample_wick4, sample_wick5] false sample_rb5 sample_setup
    sample_process_rb5
/-- Destructor for an emitted rejection-block candidate: all its fields are
determined by the candle at index `i`. -/
lemma rb_candidate_some_dest {df : DF} {r : ℚ} {rcb : ℕ} {pct vam : ℚ}
    {shs sls : List SwingLevel} {fvgs : List FVG} {obs : List OrderBlock}
    {sweeps : List LiquiditySweep} {vols : List ℚ} {i : ℕ} {rb : RejectionBlock}
    (h : rb_candidate df r rcb pct vam shs sls fvgs obs sweeps vols i = some rb) :
    (rb_bullish_ok r (df.bars.getD i bar0) ∨ rb_bearish_ok r (df.bars.getD i bar0)) ∧
    rb.timestamp = (df.bars.getD i bar0).ts ∧
    rb.bar_index = i ∧
    rb.direction = rb_direction r (df.bars.getD i bar0) ∧
    rb.zone_high = rb_zone_high rb.direction (df.bars.getD i bar0) ∧
    rb.zone_low = rb_zone_low rb.direction (df.bars.getD i bar0) ∧
    rb.candle_high = (df.bars.getD i bar0).high ∧
    rb.candle_low = (df.bars.getD i bar0).low := by
  simp only [rb_candidate] at h
  split at h
  · simp at h
  next hqual =>
    obtain rfl := (Option.some.inj h).symm
    refine ⟨?_, rfl, rfl, rfl, rfl, rfl, rfl, rfl⟩
    by_contra hc
    push_neg at hc
    exact hqual ⟨hc.1, hc.2⟩

/-- Every rejection block's direction is one of the two literals. -/
lemma rb_direction_cases (r : ℚ) (b : Bar) :
    rb_direction r b = "bullish" ∨ rb_direction r b = "bearish" := by
  unfold rb_direction
  split_ifs <;> simp

/-- Membership in `find_rejection_blocks` comes from a candidate at an
in-range index. -/
lemma find_rejection_blocks_mem {df : DF} {r : ℚ} {rcb : ℕ} {pct vam : ℚ}
    {slb ap od : ℕ} {obm sp : ℚ} {rb : RejectionBlock}
    (h : rb ∈ find_rejection_blocks df r rcb pct vam slb ap od obm sp) :
    ∃ i, 1 ≤ i ∧ i < df.bars.length ∧
      rb_candidate df r rcb pct vam
        (find_swing_highs_lows df.bars slb).1 (find_swing_highs_lows df.bars slb).2
        (find_fvgs df.bars) (find_order_blocks df.bars od obm ap)
        (find_liquidity_sweeps df.bars slb sp)
        (df.volume.getD (List.replicate df.bars.length 1)) i = some rb := by
  unfold find_rejection_blocks at h
  dsimp only at h
  rcases hsw : find_swing_highs_lows df.bars slb with ⟨shs, sls⟩
  rw [hsw] at h
  split at h
  · simp at h
  next hlen =>
    simp only [List.mem_filterMap] at h
    obtain ⟨i, hmem, hcand⟩ := h
    rw [List.mem_range'_1] at hmem
    exact ⟨i, hmem.1, by omega, hcand⟩

/-- A tz-naive timestamp is never inside a killzone. -/
lemma get_killzone_name_naive (ts : Ts) (kzc : KzCfg)
    (h : ts.tzAware = false) : get_killzone_name ts kzc = none := by
  unfold get_killzone_name
  simp [h]

/-- A candidate with a tz-naive timestamp is always discarded. -/
lemma process_rb_none_of_naive {df : DF} {symbol timeframe : String}
    {cfg : Config} {wes : List WickEvent} {al : Bool} {rb : RejectionBlock}
    (h : rb.timestamp.tzAware = false) :
    process_rb df symbol timeframe cfg wes al rb = none := by
  unfold process_rb
  split
  · rfl
  split
  · rfl
  rw [get_killzone_name_naive rb.timestamp cfg.kz h]

/-- C10: `get_killzone_name` returns none for every tz-naive timestamp,
regardless of clock time and window configuration; consequently
`build_setups` discards every rejection block whose timestamp is tz-naive,
so a bar series whose index is entirely tz-naive yields no SetupRecord. -/
theorem tz_naive_never_in_killzone_no_setups :
    (∀ (ts : Ts) (kzc : KzCfg), ts.tzAware = false →
      get_killzone_name ts kzc = none) ∧
    ∀ (df : DF) (symbol timeframe : String) (cfg : Config)
      (df_1h df_4h df_daily : Option DF),
      (∀ b ∈ df.bars, b.ts.tzAware = false) →
      build_setups df symbol timeframe cfg df_1h df_4h df_daily = [] := by
  refine ⟨get_killzone_name_naive, ?_⟩
  intro df symbol timeframe cfg df_1h df_4h df_daily hnaive
  unfold build_setups
  rw [List.filterMap_eq_nil_iff]
  intro rb hrb
  obtain ⟨i, -, hilen, hcand⟩ := find_rejection_blocks_mem hrb
  obtain ⟨-, hts, -⟩ := rb_candidate_some_dest hcand
  have hmem : df.bars.getD i bar0 ∈ df.bars := by
    rw [List.getD_eq_getElem?_getD, List.getElem?_eq_getElem hilen]
    exact List.getElem_mem hilen
  exact process_rb_none_of_naive (hts ▸ hnaive _ hmem)

/-- Witness for C10 on the concrete tz-naive series. -/
theorem tz_naive_never_in_killzone_no_setups_witness :
    get_killzone_name naive_ts sample_kz = none ∧
    build_setups sample_naive_df "NQ=F" "5m" sample_cfg none none none = [] :=
  ⟨tz_naive_never_in_killzone_no_setups.1 naive_ts sample_kz rfl,
   tz_naive_never_in_killzone_no_setups.2 sample_naive_df "NQ=F" "5m" sample_cfg
     none none none (by decide)⟩
/-- Destructor: every emitted order block sits at a bar whose ATR is
defined and positive. -/
lemma find_order_blocks_atr {bars : List Bar} {disp : ℕ} {mult : ℚ}
    {period : ℕ} {ob : OrderBlock}
    (h : ob ∈ find_order_blocks bars disp mult period) :
    ∃ v, (atr_series (bars.map Bar.high) (bars.map Bar.low)
        (bars.map Bar.close) period).getD ob.bar_index none = some v ∧ 0 < v := by
  unfold find_order_blocks at h
  split at h
  · simp at h
  · dsimp only at h
    simp only [List.mem_flatMap] at h
    obtain ⟨i, hmem, hbody⟩ := h
    rcases ha : (atr_series (bars.map Bar.high) (bars.map Bar.low)
        (bars.map Bar.close) period).getD i none with _ | a
    · rw [ha] at hbody
      simp at hbody
    · rw [ha] at hbody
      dsimp only at hbody
      split at hbody
      · simp at hbody
      next hpos =>
        split at hbody
        · simp at hbody
        · have hbi : ob.bar_index = i := by
            rcases List.mem_append.mp hbody with hh | hh <;>
              (split_ifs at hh <;> simp at hh) <;> simp [hh]
          rw [hbi]
          exact ⟨a, ha, lt_of_not_le hpos⟩

/-- C6 (amended): with `period ≥ 1` the ATR series is undefined exactly at
the first `period - 1` indices — index `period - 1` onward (within range)
is defined — and the order-block detector never emits a block at a bar
whose ATR is undefined or ≤ 0. -/
theorem atr_undefined_below_period_minus_one_and_ob_skips
    (high low close : List ℚ) (period : ℕ) (hp : 1 ≤ period) :
    (∀ i, i < high.length →
      ((atr_series high low close period).getD i none = none ↔ i + 1 < period)) ∧
    ∀ (bars : List Bar) (disp : ℕ) (mult : ℚ) (ob : OrderBlock),
      ob ∈ find_order_blocks bars disp mult period →
      ∃ v, (atr_series (bars.map Bar.high) (bars.map Bar.low)
          (bars.map Bar.close) period).getD ob.bar_index none = some v ∧ 0 < v := by
  constructor
  · intro i hi
    unfold atr_series
    dsimp only
    rw [List.getD_eq_getElem?_getD, List.getElem?_map, List.getElem?_range hi]
    simp only [Option.map_some', Option.getD_some, rollingMeanAt]
    split_ifs with hcond
    · simp
      omega
    · simp
      omega
  · intro bars disp mult ob h
    exact find_order_blocks_atr h

section C6Eval

attribute [local semireducible] Rat.add Rat.sub Rat.mul Rat.inv

/-- C6 counterexample: with `period = 2` the ATR value at index
`period - 1 = 1` is defined (`(2+3)/2 = 5/2`), so the ATR series does have
a value inside the first `period` indices. -/
theorem atr_defined_at_period_minus_one :
    (atr_series [10, 12, 11] [8, 9, 9] [9, 10, 10] 2).getD 1 none = some (5/2) ∧
    ¬ (∀ i < 2, (atr_series [10, 12, 11] [8, 9, 9] [9, 10, 10] 2).getD i none = none) := by
  constructor
  · decide
  · decide

end C6Eval

/-- Witness for the amended C6 theorem on a concrete 3-bar series. -/
theorem atr_undefined_below_period_minus_one_witness :
    (1 : ℕ) ≤ 2 ∧
    ((∀ i, i < ([10, 12, 11] : List ℚ).length →
      ((atr_series [10, 12, 11] [8, 9, 9] [9, 10, 10] 2).getD i none = none ↔ i + 1 < 2)) ∧
    ∀ (bars : List Bar) (disp : ℕ) (mult : ℚ) (ob : OrderBlock),
      ob ∈ find_order_blocks bars disp mult 2 →
      ∃ v, (atr_series (bars.map Bar.high) (bars.map Bar.low)
          (bars.map Bar.close) 2).getD ob.bar_index none = some v ∧ 0 < v) :=
  ⟨by decide,
   atr_undefined_below_period_minus_one_and_ob_skips [10, 12, 11] [8, 9, 9] [9, 10, 10] 2
     (by decide)⟩
/-- `foldl max` yields an element of the list or the seed, bounds the seed,
and bounds every element. -/
lemma foldl_max_spec (xs : List ℚ) (a : ℚ) :
    (xs.foldl max a = a ∨ xs.foldl max a ∈ xs) ∧ a ≤ xs.foldl max a ∧
      ∀ y ∈ xs, y ≤ xs.foldl max a := by
  induction xs generalizing a with
  | nil => exact ⟨Or.inl rfl, le_refl a, fun y hy => absurd hy (by simp)⟩
  | cons x xs ih =>
    obtain ⟨h1, h2, h3⟩ := ih (max a x)
    rw [List.foldl_cons]
    refine ⟨?_, le_trans (le_max_left a x) h2, ?_⟩
    · rcases h1 with h1 | h1
      · rcases max_choice a x with hm | hm
        · exact Or.inl (by rw [h1, hm])
        · exact Or.inr (by rw [h1, hm]; exact List.mem_cons_self x xs)
      · exact Or.inr (List.mem_cons_of_mem x h1)
    · intro y hy
      rcases List.mem_cons.mp hy with rfl | hy
      · exact le_trans (le_max_right a y) h2
      · exact h3 y hy

/-- Dual of `foldl_max_spec`. -/
lemma foldl_min_spec (xs : List ℚ) (a : ℚ) :
    (xs.foldl min a = a ∨ xs.foldl min a ∈ xs) ∧ xs.foldl min a ≤ a ∧
      ∀ y ∈ xs, xs.foldl min a ≤ y := by
  induction xs generalizing a with
  | nil => exact ⟨Or.inl rfl, le_refl a, fun y hy => absurd hy (by simp)⟩
  | cons x xs ih =>
    obtain ⟨h1, h2, h3⟩ := ih (min a x)
    rw [List.foldl_cons]
    refine ⟨?_, le_trans h2 (min_le_left a x), ?_⟩
    · rcases h1 with h1 | h1
      · rcases min_choice a x with hm | hm
        · exact Or.inl (by rw [h1, hm])
        · exact Or.inr (by rw [h1, hm]; exact List.mem_cons_self x xs)
      · exact Or.inr (List.mem_cons_of_mem x h1)
    · intro y hy
      rcases List.mem_cons.mp hy with rfl | hy
      · exact le_trans h2 (min_le_right a y)
      · exact h3 y hy

/-- The max of a nonempty list is an element bounding every element. -/
lemma listMaxD_spec (l : List ℚ) (d : ℚ) (h : l ≠ []) :
    listMaxD l d ∈ l ∧ ∀ y ∈ l, y ≤ listMaxD l d := by
  match l with
  | [] => exact absurd rfl h
  | x :: xs =>
    obtain ⟨h1, h2, h3⟩ := foldl_max_spec xs x
    simp only [listMaxD]
    refine ⟨?_, ?_⟩
    · rcases h1 with h1 | h1
      · rw [h1]; exact List.mem_cons_self x xs
      · exact List.mem_cons_of_mem x h1
    · intro y hy
      rcases List.mem_cons.mp hy with rfl | hy
      · exact h2
      · exact h3 y hy

/-- The min of a nonempty list is an element bounded by every element. -/
lemma listMinD_spec (l : List ℚ) (d : ℚ) (h : l ≠ []) :
    listMinD l d ∈ l ∧ ∀ y ∈ l, listMinD l d ≤ y := by
  match l with
  | [] => exact absurd rfl h
  | x :: xs =>
    obtain ⟨h1, h2, h3⟩ := foldl_min_spec xs x
    simp only [listMinD]
    refine ⟨?_, ?_⟩
    · rcases h1 with h1 | h1
      · rw [h1]; exact List.mem_cons_self x xs
      · exact List.mem_cons_of_mem x h1
    · intro y hy
      rcases List.mem_cons.mp hy with rfl | hy
      · exact h2
      · exact h3 y hy

/-- Elements of a slice are exactly the list values at the covered
positions. -/
lemma window_slice_mem (xs : List ℚ) (lo n : ℕ) (y : ℚ) :
    y ∈ window_slice xs lo n ↔
      ∃ k, k < n ∧ lo + k < xs.length ∧ y = xs.getD (lo + k) 0 := by
  unfold window_slice
  constructor
  · intro hy
    obtain ⟨j, hj, hval⟩ := List.mem_iff_getElem.mp hy
    have hjlen : j < n ∧ j < xs.length - lo := by
      have := hj
      simp [List.length_take, List.length_drop] at this
      omega
    refine ⟨j, hjlen.1, by omega, ?_⟩
    rw [← hval, List.getElem_take, List.getElem_drop]
    rw [List.getD_eq_getElem?_getD, List.getElem?_eq_getElem (by omega)]
    rfl
  · rintro ⟨k, hk, hklen, rfl⟩
    rw [List.mem_iff_getElem]
    refine ⟨k, ?_, ?_⟩
    · simp [List.length_take, List.length_drop]
      omega
    · rw [List.getElem_take, List.getElem_drop]
      rw [List.getD_eq_getElem?_getD, List.getElem?_eq_getElem (by omega)]
      rfl
/-- Swing-high membership characterization: bar `i` is reported (with its
high as price) iff `i` is an interior index and its high bounds the whole
closed window of radius `lookback`. -/
lemma swing_highs_mem_iff (bars : List Bar) (lookback : ℕ) (i : ℕ) :
    (∃ sw ∈ (find_swing_highs_lows bars lookback).1, sw.bar_index = i ∧
        sw.price = (bars.map Bar.high).getD i 0 ∧ sw.is_high = true) ↔
      (lookback ≤ i ∧ i + lookback < bars.length ∧
       ∀ j, i - lookback ≤ j → j ≤ i + lookback →
         (bars.map Bar.high).getD j 0 ≤ (bars.map Bar.high).getD i 0) := by
  have hlen : (bars.map Bar.high).length = bars.length := List.length_map _ _
  unfold find_swing_highs_lows
  split
  next hdeg =>
    simp only [List.not_mem_nil]
    constructor
    · rintro ⟨sw, hsw, -⟩
      exact absurd hsw (by simp)
    · rintro ⟨h1, h2, -⟩
      omega
  next hdeg =>
    constructor
    · rintro ⟨sw, hmem, hbi, hpr, hih⟩
      simp only [List.mem_filterMap] at hmem
      obtain ⟨i', hi'r, hf⟩ := hmem
      rw [List.mem_range'_1] at hi'r
      split at hf
      next hcond =>
        obtain rfl := (Option.some.inj hf).symm
        have hii : i' = i := by simpa using hbi
        subst hii
        refine ⟨hi'r.1, by omega, ?_⟩
        intro j hj1 hj2
        have hwin : (bars.map Bar.high).getD j 0 ∈
            window_slice (bars.map Bar.high) (i' - lookback) (2 * lookback + 1) := by
          rw [window_slice_mem]
          exact ⟨j - (i' - lookback), by omega, by omega, by rw [Nat.add_sub_cancel' hj1]⟩
        have hspec := listMaxD_spec
          (window_slice (bars.map Bar.high) (i' - lookback) (2 * lookback + 1)) 0
          (by intro hnil; rw [hnil] at hwin; exact absurd hwin (by simp))
        calc (bars.map Bar.high).getD j 0 ≤ _ := hspec.2 _ hwin
          _ = (bars.map Bar.high).getD i' 0 := hcond.symm
      · exact absurd hf (by simp)
    · rintro ⟨hlbi, hilen, hall⟩
      have hiwin : (bars.map Bar.high).getD i 0 ∈
          window_slice (bars.map Bar.high) (i - lookback) (2 * lookback + 1) := by
        rw [window_slice_mem]
        exact ⟨lookback, by omega, by omega, by rw [Nat.sub_add_cancel hlbi]⟩
      have hwne : window_slice (bars.map Bar.high) (i - lookback) (2 * lookback + 1) ≠ [] := by
        intro hnil
        rw [hnil] at hiwin
        exact absurd hiwin (by simp)
      have hspec := listMaxD_spec
        (window_slice (bars.map Bar.high) (i - lookback) (2 * lookback + 1)) 0 hwne
      have hcond : (bars.map Bar.high).getD i 0 =
          listMaxD (window_slice (bars.map Bar.high) (i - lookback) (2 * lookback + 1)) 0 := by
        refine le_antisymm (hspec.2 _ hiwin) ?_
        obtain ⟨k, hk, hklen, hkval⟩ := (window_slice_mem _ _ _ _).mp hspec.1
        rw [hkval]
        exact hall (i - lookback + k) (by omega) (by omega)
      refine ⟨⟨(bars.getD i bar0).ts, (bars.map Bar.high).getD i 0, true, i⟩, ?_, rfl, rfl, rfl⟩
      simp only [List.mem_filterMap]
      refine ⟨i, ?_, ?_⟩
      · rw [List.mem_range'_1]
        omega
      · rw [if_pos hcond]
/-- Swing-low membership characterization, symmetric to
`swing_highs_mem_iff` with the minimum. -/
lemma swing_lows_mem_iff (bars : List Bar) (lookback : ℕ) (i : ℕ) :
    (∃ sw ∈ (find_swing_highs_lows bars lookback).2, sw.bar_index = i ∧
        sw.price = (bars.map Bar.low).getD i 0 ∧ sw.is_high = false) ↔
      (lookback ≤ i ∧ i + lookback < bars.length ∧
       ∀ j, i - lookback ≤ j → j ≤ i + lookback →
         (bars.map Bar.low).getD i 0 ≤ (bars.map Bar.low).getD j 0) := by
  have hlen : (bars.map Bar.low).length = bars.length := List.length_map _ _
  unfold find_swing_highs_lows
  split
  next hdeg =>
    simp only [List.not_mem_nil]
    constructor
    · rintro ⟨sw, hsw, -⟩
      exact absurd hsw (by simp)
    · rintro ⟨h1, h2, -⟩
      omega
  next hdeg =>
    constructor
    · rintro ⟨sw, hmem, hbi, hpr, hih⟩
      simp only [List.mem_filterMap] at hmem
      obtain ⟨i', hi'r, hf⟩ := hmem
      rw [List.mem_range'_1] at hi'r
      split at hf
      next hcond =>
        obtain rfl := (Option.some.inj hf).symm
        have hii : i' = i := by simpa using hbi
        subst hii
        refine ⟨hi'r.1, by omega, ?_⟩
        intro j hj1 hj2
        have hwin : (bars.map Bar.low).getD j 0 ∈
            window_slice (bars.map Bar.low) (i' - lookback) (2 * lookback + 1) := by
          rw [window_slice_mem]
          exact ⟨j - (i' - lookback), by omega, by omega, by rw [Nat.add_sub_cancel' hj1]⟩
        have hspec := listMinD_spec
          (window_slice (bars.map Bar.low) (i' - lookback) (2 * lookback + 1)) 0
          (by intro hnil; rw [hnil] at hwin; exact absurd hwin (by simp))
        calc (bars.map Bar.low).getD i' 0 = _ := hcond
          _ ≤ (bars.map Bar.low).getD j 0 := hspec.2 _ hwin
      · exact absurd hf (by simp)
    · rintro ⟨hlbi, hilen, hall⟩
      have hiwin : (bars.map Bar.low).getD i 0 ∈
          window_slice (bars.map Bar.low) (i - lookback) (2 * lookback + 1) := by
        rw [window_slice_mem]
        exact ⟨lookback, by omega, by omega, by rw [Nat.sub_add_cancel hlbi]⟩
      have hwne : window_slice (bars.map Bar.low) (i - lookback) (2 * lookback + 1) ≠ [] := by
        intro hnil
        rw [hnil] at hiwin
        exact absurd hiwin (by simp)
      have hspec := listMinD_spec
        (window_slice (bars.map Bar.low) (i - lookback) (2 * lookback + 1)) 0 hwne
      have hcond : (bars.map Bar.low).getD i 0 =
          listMinD (window_slice (bars.map Bar.low) (i - lookback) (2 * lookback + 1)) 0 := by
        refine le_antisymm ?_ (hspec.2 _ hiwin)
        obtain ⟨k, hk, hklen, hkval⟩ := (window_slice_mem _ _ _ _).mp hspec.1
        rw [hkval]
        exact hall (i - lookback + k) (by omega) (by omega)
      refine ⟨⟨(bars.getD i bar0).ts, (bars.map Bar.low).getD i 0, false, i⟩, ?_, rfl, rfl, rfl⟩
      simp only [List.mem_filterMap]
      refine ⟨i, ?_, ?_⟩
      · rw [List.mem_range'_1]
        omega
      · rw [if_pos hcond]

/-- C7: For every bar series and `lookback ≥ 1`, the swing extractor
reports bar `i` as a swing high iff `lookback ≤ i < len - lookback` and its
high bounds every high in the closed window `[i-lookback, i+lookback]`
(i.e. equals the window max; ties are all reported), symmetrically for
swing lows with the minimum; and fewer than `2*lookback+1` bars yields two
empty lists rather than an error. -/
theorem find_swing_highs_lows_spec (bars : List Bar) (lookback : ℕ)
    (_hlb : 1 ≤ lookback) :
    (bars.length < 2 * lookback + 1 →
      find_swing_highs_lows bars lookback = ([], [])) ∧
    (∀ i, (∃ sw ∈ (find_swing_highs_lows bars lookback).1, sw.bar_index = i ∧
        sw.price = (bars.map Bar.high).getD i 0 ∧ sw.is_high = true) ↔
      (lookback ≤ i ∧ i + lookback < bars.length ∧
       ∀ j, i - lookback ≤ j → j ≤ i + lookback →
         (bars.map Bar.high).getD j 0 ≤ (bars.map Bar.high).getD i 0)) ∧
    (∀ i, (∃ sw ∈ (find_swing_highs_lows bars lookback).2, sw.bar_index = i ∧
        sw.price = (bars.map Bar.low).getD i 0 ∧ sw.is_high = false) ↔
      (lookback ≤ i ∧ i + lookback < bars.length ∧
       ∀ j, i - lookback ≤ j → j ≤ i + lookback →
         (bars.map Bar.low).getD i 0 ≤ (bars.map Bar.low).getD j 0)) := by
  refine ⟨?_, fun i => swing_highs_mem_iff bars lookback i,
    fun i => swing_lows_mem_iff bars lookback i⟩
  intro hdeg
  unfold find_swing_highs_lows
  rw [if_pos (by omega)]

/-- Witness for C7: with lookback 2 the example reports a swing high at
index 5 with price 10 (the window maximum). -/
theorem find_swing_highs_lows_spec_witness :
    ∃ sw ∈ (find_swing_highs_lows c7_bars 2).1, sw.bar_index = 5 ∧
      sw.price = (c7_bars.map Bar.high).getD 5 0 ∧ sw.is_high = true :=
  ((find_swing_highs_lows_spec c7_bars 2 (by decide)).2.1 5).mpr
    ⟨by decide, by decide, by
      intro j h1 h2
      interval_cases j <;> decide⟩
/-- Filtering an index-faithful `filterMap` for one index of a nodup scan
list yields exactly the candidate at that index. -/
lemma filterMap_filter_index {α : Type} (f : ℕ → Option α) (idx : α → ℕ)
    (hf : ∀ j a, f j = some a → idx a = j) (l : List ℕ) (hnd : l.Nodup)
    (i : ℕ) (hi : i ∈ l) (a : α) (ha : f i = some a) :
    (l.filterMap f).filter (fun x => idx x == i) = [a] := by
  induction l with
  | nil => simp at hi
  | cons x xs ih =>
    obtain ⟨hx, hxs⟩ := List.nodup_cons.mp hnd
    rcases List.mem_cons.mp hi with rfl | hi'
    · have htail : (xs.filterMap f).filter (fun b => idx b == i) = [] := by
        rw [List.filter_eq_nil_iff]
        intro b hb
        obtain ⟨j, hj, hjb⟩ := List.mem_filterMap.mp hb
        have hbj : idx b = j := hf _ _ hjb
        simp [hbj]
        exact fun hji => hx (hji ▸ hj)
      simp [List.filterMap_cons, ha, List.filter_cons, hf _ _ ha, htail]
    · have hxi : x ≠ i := fun hxi => hx (hxi ▸ hi')
      cases hfx : f x with
      | none => simp [List.filterMap_cons, hfx, ih hxs hi']
      | some b =>
        simp [List.filterMap_cons, hfx, List.filter_cons, hf _ _ hfx, hxi, ih hxs hi']
/-- C8: For every candle in the detector's scan range whose upper and lower
wicks both meet the wick-to-body ratio threshold, `find_rejection_blocks`
emits exactly one rejection block for that candle; its direction is that of
the longer wick, and equal-magnitude qualifying wicks classify as bearish
(the `>=` tie-break). -/
theorem rejection_block_unique_direction_tie_break
    (df : DF) (r : ℚ) (rcb : ℕ) (pct vam : ℚ) (slb ap od : ℕ) (obm sp : ℚ)
    (i : ℕ) (hlen : 4 ≤ df.bars.length) (hi1 : 1 ≤ i)
    (hirange : i + rcb + 1 ≤ df.bars.length)
    (hbull : rb_bullish_ok r (df.bars.getD i bar0))
    (hbear : rb_bearish_ok r (df.bars.getD i bar0)) :
    ∃ rb, (find_rejection_blocks df r rcb pct vam slb ap od obm sp).filter
        (fun rb => rb.bar_index == i) = [rb] ∧
      rb.direction = (if wick_upper_of (df.bars.getD i bar0) ≥
          wick_lower_of (df.bars.getD i bar0) then "bearish" else "bullish") ∧
      (wick_upper_of (df.bars.getD i bar0) = wick_lower_of (df.bars.getD i bar0) →
        rb.direction = "bearish") := by
  have hdir : rb_direction r (df.bars.getD i bar0) =
      (if wick_upper_of (df.bars.getD i bar0) ≥ wick_lower_of (df.bars.getD i bar0)
        then "bearish" else "bullish") := by
    unfold rb_direction
    rw [if_pos ⟨hbull, hbear⟩]
  unfold find_rejection_blocks
  dsimp only
  rcases hsw : find_swing_highs_lows df.bars slb with ⟨shs, sls⟩
  rw [if_neg (by omega)]
  dsimp only
  set f := rb_candidate df r rcb pct vam shs sls (find_fvgs df.bars)
    (find_order_blocks df.bars od obm ap) (find_liquidity_sweeps df.bars slb sp)
    (df.volume.getD (List.replicate df.bars.length 1)) with hfdef
  have hsome : ∃ rb, f i = some rb := by
    rw [hfdef]
    unfold rb_candidate
    rw [if_neg (by push_neg; intro h; exact absurd hbull h)]
    exact ⟨_, rfl⟩
  obtain ⟨rb, hrb⟩ := hsome
  obtain ⟨-, -, -, hd, -⟩ := rb_candidate_some_dest hrb
  refine ⟨rb, ?_, ?_, ?_⟩
  · exact filterMap_filter_index f RejectionBlock.bar_index
      (fun j a ha => (rb_candidate_some_dest ha).2.2.1)
      (List.range' 1 (df.bars.length - rcb - 1)) (List.nodup_range' _ _)
      i (by rw [List.mem_range'_1]; omega) rb hrb
  · rw [hd, hdir]
  · intro heq
    rw [hd, hdir, if_pos (le_of_eq heq.symm)]

section C8Eval

attribute [local semireducible] Rat.add Rat.sub Rat.mul Rat.inv

/-- Witness for C8: the equal-wick doji produces exactly one block,
classified bearish by the tie-break. -/
theorem rejection_block_unique_direction_tie_break_witness :
    ∃ rb, (find_rejection_blocks c8_df 2 1 0 1 1 1 2 (1/2) (1/50)).filter
        (fun rb => rb.bar_index == 1) = [rb] ∧
      rb.direction = (if wick_upper_of (c8_df.bars.getD 1 bar0) ≥
          wick_lower_of (c8_df.bars.getD 1 bar0) then "bearish" else "bullish") ∧
      (wick_upper_of (c8_df.bars.getD 1 bar0) = wick_lower_of (c8_df.bars.getD 1 bar0) →
        rb.direction = "bearish") :=
  rejection_block_unique_direction_tie_break c8_df 2 1 0 1 1 1 2 (1/2) (1/50) 1
    (by decide) (by decide) (by decide) (by decide) (by decide)

end C8Eval
/-- The scan returns nothing iff no remaining bar reaches stop or target. -/
lemma sim_scan_eq_none_iff (setup : SetupRecord) (ep : ℚ) (held : ℕ)
    (l : List Bar) :
    sim_scan setup ep held l = none ↔
      ∀ b ∈ l, ¬sim_adverse setup b ∧ ¬sim_favorable setup b := by
  induction l generalizing held with
  | nil => simp [sim_scan]
  | cons b rest ih =>
    by_cases hdir : setup.direction = "bullish" <;>
      by_cases hadv : sim_adverse setup b <;>
      by_cases hfav : sim_favorable setup b <;>
      simp only [sim_scan, hdir, if_pos, if_neg, sim_adverse, sim_favorable] at * <;>
      simp_all [sim_scan, ih] <;>
      (try (split_ifs <;> simp_all)) <;> (try constructor) <;> linarith
/-- A loss is returned at offset `j` from the fill bar when bar `j` reaches
the stop and no earlier bar reached stop or target — even when bar `j`
also reaches the target, since the stop check runs first. -/
lemma sim_scan_loss (setup : SetupRecord) (ep : ℚ) (l : List Bar)
    (held j : ℕ) (hj : j < l.length)
    (hadv : sim_adverse setup (l.getD j bar0))
    (hclean : ∀ k, k < j →
      ¬sim_adverse setup (l.getD k bar0) ∧ ¬sim_favorable setup (l.getD k bar0)) :
    sim_scan setup ep held l = some ⟨setup, "loss", setup.stop, held + j,
      if setup.direction = "bullish" then setup.stop - ep else ep - setup.stop⟩ := by
  induction l generalizing held j with
  | nil => simp at hj
  | cons b rest ih =>
    cases j with
    | zero =>
      by_cases hdir : setup.direction = "bullish" <;>
        simp_all [sim_scan, sim_adverse]
    | succ j' =>
      obtain ⟨h0a, h0f⟩ := hclean 0 (Nat.succ_pos j')
      have hrec := ih (held + 1) j' (by simpa using hj) (by simpa using hadv)
        (fun k hk => by simpa using hclean (k + 1) (by omega))
      rw [show held + (j' + 1) = held + 1 + j' by omega]
      by_cases hdir : setup.direction = "bullish" <;>
        simp_all [sim_scan, sim_adverse, sim_favorable] <;>
        rw [if_neg (by linarith), if_neg (by linarith)]

/-- A win is returned at offset `j` from the fill bar when bar `j` reaches
the target but not the stop and no earlier bar reached either. -/
lemma sim_scan_win (setup : SetupRecord) (ep : ℚ) (l : List Bar)
    (held j : ℕ) (hj : j < l.length)
    (hnadv : ¬sim_adverse setup (l.getD j bar0))
    (hfav : sim_favorable setup (l.getD j bar0))
    (hclean : ∀ k, k < j →
      ¬sim_adverse setup (l.getD k bar0) ∧ ¬sim_favorable setup (l.getD k bar0)) :
    sim_scan setup ep held l = some ⟨setup, "win", setup.target, held + j,
      if setup.direction = "bullish" then setup.target - ep else ep - setup.target⟩ := by
  induction l generalizing held j with
  | nil => simp at hj
  | cons b rest ih =>
    cases j with
    | zero =>
      by_cases hdir : setup.direction = "bullish" <;>
        simp_all [sim_scan, sim_adverse, sim_favorable]
    | succ j' =>
      obtain ⟨h0a, h0f⟩ := hclean 0 (Nat.succ_pos j')
      have hrec := ih (held + 1) j' (by simpa using hj) (by simpa using hnadv)
        (by simpa using hfav) (fun k hk => by simpa using hclean (k + 1) (by omega))
      rw [show held + (j' + 1) = held + 1 + j' by omega]
      by_cases hdir : setup.direction = "bullish" <;>
        simp_all [sim_scan, sim_adverse, sim_favorable] <;>
        rw [if_neg (by linarith), if_neg (by linarith)]
/-- C3: once a trade is filled (at bar `eb`), a loss is declared at the
first subsequent bar whose adverse extreme reaches the stop and a win at
the first bar whose favorable extreme reaches the target; a bar reaching
both yields a loss (the stop check is evaluated first), and exhausting the
series with neither yields no TradeResult. Offsets `j` count bars from the
fill bar, which is itself examined. -/
theorem simulate_trade_stop_first (bars : List Bar) (setup : SetupRecord)
    (sbi mf eb : ℕ)
    (hfill : find_entry_bar bars setup sbi mf = some eb) :
    (simulate_trade bars setup sbi mf = none ↔
      ∀ b ∈ bars.drop eb, ¬sim_adverse setup b ∧ ¬sim_favorable setup b) ∧
    (∀ j, j < (bars.drop eb).length →
      sim_adverse setup ((bars.drop eb).getD j bar0) →
      (∀ k, k < j → ¬sim_adverse setup ((bars.drop eb).getD k bar0) ∧
        ¬sim_favorable setup ((bars.drop eb).getD k bar0)) →
      simulate_trade bars setup sbi mf = some ⟨setup, "loss", setup.stop, j,
        if setup.direction = "bullish"
          then setup.stop - (setup.entry_zone_high + setup.entry_zone_low) / 2
          else (setup.entry_zone_high + setup.entry_zone_low) / 2 - setup.stop⟩) ∧
    (∀ j, j < (bars.drop eb).length →
      ¬sim_adverse setup ((bars.drop eb).getD j bar0) →
      sim_favorable setup ((bars.drop eb).getD j bar0) →
      (∀ k, k < j → ¬sim_adverse setup ((bars.drop eb).getD k bar0) ∧
        ¬sim_favorable setup ((bars.drop eb).getD k bar0)) →
      simulate_trade bars setup sbi mf = some ⟨setup, "win", setup.target, j,
        if setup.direction = "bullish"
          then setup.target - (setup.entry_zone_high + setup.entry_zone_low) / 2
          else (setup.entry_zone_high + setup.entry_zone_low) / 2 - setup.target⟩) := by
  unfold simulate_trade
  rw [hfill]
  refine ⟨sim_scan_eq_none_iff setup _ 0 (bars.drop eb), ?_, ?_⟩
  · intro j hj hadv hcl
    simpa using sim_scan_loss setup _ (bars.drop eb) 0 j hj hadv hcl
  · intro j hj hnadv hfav hcl
    simpa using sim_scan_win setup _ (bars.drop eb) 0 j hj hnadv hfav hcl

/-- Witness for C3 at the concrete tie-break input (fill bar 1 reaches
both exits). -/
theorem simulate_trade_stop_first_witness :
    (simulate_trade c3_bars c3_setup 0 10 = none ↔
      ∀ b ∈ c3_bars.drop 1, ¬sim_adverse c3_setup b ∧ ¬sim_favorable c3_setup b) ∧
    (∀ j, j < (c3_bars.drop 1).length →
      sim_adverse c3_setup ((c3_bars.drop 1).getD j bar0) →
      (∀ k, k < j → ¬sim_adverse c3_setup ((c3_bars.drop 1).getD k bar0) ∧
        ¬sim_favorable c3_setup ((c3_bars.drop 1).getD k bar0)) →
      simulate_trade c3_bars c3_setup 0 10 = some ⟨c3_setup, "loss", c3_setup.stop, j,
        if c3_setup.direction = "bullish"
          then c3_setup.stop - (c3_setup.entry_zone_high + c3_setup.entry_zone_low) / 2
          else (c3_setup.entry_zone_high + c3_setup.entry_zone_low) / 2 - c3_setup.stop⟩) ∧
    (∀ j, j < (c3_bars.drop 1).length →
      ¬sim_adverse c3_setup ((c3_bars.drop 1).getD j bar0) →
      sim_favorable c3_setup ((c3_bars.drop 1).getD j bar0) →
      (∀ k, k < j → ¬sim_adverse c3_setup ((c3_bars.drop 1).getD k bar0) ∧
        ¬sim_favorable c3_setup ((c3_bars.drop 1).getD k bar0)) →
      simulate_trade c3_bars c3_setup 0 10 = some ⟨c3_setup, "win", c3_setup.target, j,
        if c3_setup.direction = "bullish"
          then c3_setup.target - (c3_setup.entry_zone_high + c3_setup.entry_zone_low) / 2
          else (c3_setup.entry_zone_high + c3_setup.entry_zone_low) / 2 - c3_setup.target⟩) :=
  simulate_trade_stop_first c3_bars c3_setup 0 10 1 (by decide)
/-- C5 (amended): full characterization of the liquidity-sweep detector. A
sweep is emitted exactly for the candidate positions `i` in
`[2*lookback, len-2)` where the FIRST swing in swing-list output order
(ascending bar index, i.e. the earliest-formed matching level, not the
nearest in time and not the most extreme price) satisfies: formed strictly
before `i` (`swing.bar_index < i`), broken beyond `threshold_pct` by bar
`i+1`, and closed back on the origin side at bar `i+1`; the sweep carries
that swing's level and the index `i+1` of the close-back bar. -/
theorem find_liquidity_sweeps_characterization (bars : List Bar)
    (lb : ℕ) (th : ℚ) (sw : LiquiditySweep) :
    sw ∈ find_liquidity_sweeps bars lb th ↔
      ∃ i, lb * 2 ≤ i ∧ i + 2 < bars.length ∧
        ((∃ sh, (find_swing_highs_lows bars lb).1.find? (sweep_high_match bars th i) = some sh ∧
            sw = ⟨(bars.getD (i + 1) bar0).ts, "sweep_highs", sh.price, i + 1⟩) ∨
         (∃ sl, (find_swing_highs_lows bars lb).2.find? (sweep_low_match bars th i) = some sl ∧
            sw = ⟨(bars.getD (i + 1) bar0).ts, "sweep_lows", sl.price, i + 1⟩)) := by
  unfold find_liquidity_sweeps
  rcases hsw : find_swing_highs_lows bars lb with ⟨shs, sls⟩
  dsimp only
  split
  next hemp =>
    obtain ⟨h1, h2⟩ := hemp
    constructor
    · intro h
      simp at h
    · rintro ⟨i, hi1, hi2, ⟨x, hx, -⟩ | ⟨x, hx, -⟩⟩
      · rw [List.isEmpty_iff.mp h1] at hx
        simp at hx
      · rw [List.isEmpty_iff.mp h2] at hx
        simp at hx
  next hemp =>
    simp only [List.mem_flatMap]
    constructor
    · rintro ⟨i, hir, hbody⟩
      rw [List.mem_range'_1] at hir
      refine ⟨i, by omega, by omega, ?_⟩
      rcases List.mem_append.mp hbody with hb | hb
      · rcases hh : shs.find? (sweep_high_match bars th i) with _ | sh
        · rw [hh] at hb
          simp at hb
        · rw [hh] at hb
          simp only [List.mem_singleton] at hb
          exact Or.inl ⟨sh, rfl, hb⟩
      · rcases hh : sls.find? (sweep_low_match bars th i) with _ | sl
        · rw [hh] at hb
          simp at hb
        · rw [hh] at hb
          simp only [List.mem_singleton] at hb
          exact Or.inr ⟨sl, rfl, hb⟩
    · rintro ⟨i, hi1, hi2, ⟨sh, hfind, rfl⟩ | ⟨sl, hfind, rfl⟩⟩
      · refine ⟨i, by rw [List.mem_range'_1]; omega, ?_⟩
        apply List.mem_append_left
        rw [hfind]
        simp
      · refine ⟨i, by rw [List.mem_range'_1]; omega, ?_⟩
        apply List.mem_append_right
        rw [hfind]
        simp

section C5Eval

attribute [local semireducible] Rat.add Rat.sub Rat.mul Rat.inv

/-- C5 counterexample: at candidate position 4 both prior swing highs
match the breach test for bar 5, and the detector emits the EARLIEST one
(bar 1, level 110) — not the nearest-in-time matching level (bar 3, level
105). -/
theorem liquidity_sweep_takes_earliest_not_nearest :
    find_liquidity_sweeps c5_bars 1 0 = [⟨sample_ts, "sweep_highs", 110, 5⟩] ∧
    (find_swing_highs_lows c5_bars 1).1 =
      [⟨sample_ts, 110, true, 1⟩, ⟨sample_ts, 105, true, 3⟩, ⟨sample_ts, 111, true, 5⟩] ∧
    sweep_high_match c5_bars 0 4 ⟨sample_ts, 110, true, 1⟩ = true ∧
    sweep_high_match c5_bars 0 4 ⟨sample_ts, 105, true, 3⟩ = true ∧
    (105 : ℚ) ≠ 110 :=
  ⟨by decide, by decide, by decide, by decide, by decide⟩

end C5Eval

/-- Witness instantiating the C5 characterization at the concrete sweep. -/
theorem find_liquidity_sweeps_characterization_witness :
    (⟨sample_ts, "sweep_highs", 110, 5⟩ : LiquiditySweep) ∈
        find_liquidity_sweeps c5_bars 1 0 ↔
      ∃ i, 1 * 2 ≤ i ∧ i + 2 < c5_bars.length ∧
        ((∃ sh, (find_swing_highs_lows c5_bars 1).1.find? (sweep_high_match c5_bars 0 i) = some sh ∧
            (⟨sample_ts, "sweep_highs", 110, 5⟩ : LiquiditySweep) =
              ⟨(c5_bars.getD (i + 1) bar0).ts, "sweep_highs", sh.price, i + 1⟩) ∨
         (∃ sl, (find_swing_highs_lows c5_bars 1).2.find? (sweep_low_match c5_bars 0 i) = some sl ∧
            (⟨sample_ts, "sweep_highs", 110, 5⟩ : LiquiditySweep) =
              ⟨(c5_bars.getD (i + 1) bar0).ts, "sweep_lows", sl.price, i + 1⟩)) :=
  find_liquidity_sweeps_characterization c5_bars 1 0 ⟨sample_ts, "sweep_highs", 110, 5⟩
/-- The stop buffer is nonnegative whenever the configured base buffers and
volume extras are. -/
lemma stop_buffer_nonneg (cfg : Config) (df : DF) (is_nq : Bool) (i : ℕ)
    (hbufnq : 0 ≤ cfg.stop_buffer_points_nq)
    (hbufes : 0 ≤ cfg.stop_buffer_points_es)
    (hexnq : 0 ≤ cfg.volume_buffer_extra_nq)
    (hexes : 0 ≤ cfg.volume_buffer_extra_es) :
    0 ≤ stop_buffer cfg df is_nq i := by
  unfold stop_buffer
  cases df.volume <;> cases is_nq <;> dsimp only <;> split_ifs <;> linarith

/-- C9: every record emitted by `build_setups` (over well-formed bars and a
sane configuration: nonnegative retracement fraction, buffers, extras and
tolerances, tolerance below the minimum risk, reward multiple at least 1)
has `entry_zone_high ≥ entry_zone_low`, and its stop and target lie on
opposite sides of the entry zone along the direction axis: bullish has
`stop < entry_zone_low` and `target > entry_zone_high`, bearish has
`stop > entry_zone_high` and `target < entry_zone_low`. -/
theorem setup_geometry_invariants
    (df : DF) (symbol timeframe : String) (cfg : Config)
    (df_1h df_4h df_daily : Option DF) (s : SetupRecord)
    (hs : s ∈ build_setups df symbol timeframe cfg df_1h df_4h df_daily)
    (hwf : ∀ b ∈ df.bars, b.low ≤ min b.open' b.close ∧ max b.open' b.close ≤ b.high)
    (hfib : 0 ≤ cfg.entry_fib_in_wick)
    (hbufnq : 0 ≤ cfg.stop_buffer_points_nq)
    (hbufes : 0 ≤ cfg.stop_buffer_points_es)
    (hexnq : 0 ≤ cfg.volume_buffer_extra_nq)
    (hexes : 0 ≤ cfg.volume_buffer_extra_es)
    (htolnq : 0 ≤ cfg.entry_zone_tolerance_points_nq)
    (htoles : 0 ≤ cfg.entry_zone_tolerance_points_es)
    (hminnq : cfg.entry_zone_tolerance_points_nq < cfg.min_risk_points_nq)
    (hmines : cfg.entry_zone_tolerance_points_es < cfg.min_risk_points_es)
    (hrr : 1 ≤ cfg.target_rr) :
    s.entry_zone_low ≤ s.entry_zone_high ∧
    (s.direction = "bullish" → s.stop < s.entry_zone_low ∧ s.entry_zone_high < s.target) ∧
    (s.direction = "bearish" → s.entry_zone_high < s.stop ∧ s.target < s.entry_zone_low) := by
  simp only [build_setups, List.mem_filterMap] at hs
  obtain ⟨rb, hrbmem, hproc⟩ := hs
  obtain ⟨-, -, -, hmin, -, kz_name, -, hset⟩ := process_rb_some_dest hproc
  obtain ⟨i, -, hilen, hcand⟩ := find_rejection_blocks_mem hrbmem
  obtain ⟨-, -, -, hdir, hzh, hzl, hch, hcl⟩ := rb_candidate_some_dest hcand
  have hbmem : df.bars.getD i bar0 ∈ df.bars := by
    rw [List.getD_eq_getElem?_getD, List.getElem?_eq_getElem hilen]
    exact List.getElem_mem hilen
  obtain ⟨hwf1, hwf2⟩ := hwf _ hbmem
  set b := df.bars.getD i bar0 with hb
  set is_nq := symbol_is_nq symbol with hnq
  have htol : 0 ≤ (if is_nq then cfg.entry_zone_tolerance_points_nq
      else cfg.entry_zone_tolerance_points_es) := by
    split <;> assumption
  have htolmin : (if is_nq then cfg.entry_zone_tolerance_points_nq
      else cfg.entry_zone_tolerance_points_es) < min_risk_of cfg symbol := by
    unfold min_risk_of
    rw [← hnq]
    split <;> assumption
  have hbuf : 0 ≤ stop_buffer cfg df is_nq rb.bar_index :=
    stop_buffer_nonneg cfg df is_nq rb.bar_index hbufnq hbufes hexnq hexes
  have hrisk := hmin
  unfold risk_points_of at hrisk
  rw [← hnq] at hrisk
  subst hset
  simp only [setup_emitted, ← hnq]
  clear hproc hcand hrbmem hmin hwf
  rcases rb_direction_cases cfg.rb_wick_to_body_ratio_min b with hbull | hbear
  · -- bullish
    have hd : rb.direction = "bullish" := by rw [hdir, hbull]
    have hzl' : rb.zone_low = b.low := by rw [hzl, hd]; unfold rb_zone_low; simp
    have hzh' : rb.zone_high = bar_body_bottom b := by
      rw [hzh, hd]; unfold rb_zone_high; simp
    have hrange : 0 ≤ rb.zone_high - rb.zone_low := by
      rw [hzl', hzh']
      unfold bar_body_bottom
      linarith
    have hentry : entry_level_of cfg rb = rb.zone_low +
        cfg.entry_fib_in_wick * (rb.zone_high - rb.zone_low) := by
      unfold entry_level_of
      rw [if_pos hd]
    have hstop : stop_of cfg df is_nq rb =
        rb.candle_low - stop_buffer cfg df is_nq rb.bar_index := by
      unfold stop_of
      rw [if_pos hd]
    have hstople : stop_of cfg df is_nq rb ≤ entry_level_of cfg rb := by
      rw [hstop, hentry, hcl, ← hzl']
      nlinarith [mul_nonneg hfib hrange]
    have habs : |entry_level_of cfg rb - stop_of cfg df is_nq rb| =
        entry_level_of cfg rb - stop_of cfg df is_nq rb :=
      abs_of_nonneg (by linarith)
    rw [habs] at hrisk
    have htgt : capped_target (entry_level_of cfg rb) (stop_of cfg df is_nq rb)
        rb.direction cfg = entry_level_of cfg rb +
          |entry_level_of cfg rb - stop_of cfg df is_nq rb| * cfg.target_rr := by
      unfold capped_target
      rw [if_pos hd]
    have h0 : 0 ≤ entry_level_of cfg rb - stop_of cfg df is_nq rb := by
      linarith only [hstople]
    have h1 := mul_le_mul_of_nonneg_left hrr h0
    rw [mul_one] at h1
    refine ⟨by linarith only [htol], ?_, ?_⟩
    · rintro -
      exact ⟨by linarith only [hrisk, htolmin],
        by rw [htgt, habs]; linarith only [h1, hrisk, htolmin]⟩
    · intro hcontr
      rw [hd] at hcontr
      simp at hcontr
  · -- bearish
    have hd : rb.direction = "bearish" := by rw [hdir, hbear]
    have hne : ¬ rb.direction = "bullish" := by rw [hd]; simp
    have hzl' : rb.zone_low = bar_body_top b := by
      rw [hzl, hd]; unfold rb_zone_low; simp
    have hzh' : rb.zone_high = b.high := by rw [hzh, hd]; unfold rb_zone_high; simp
    have hrange : 0 ≤ rb.zone_high - rb.zone_low := by
      rw [hzl', hzh']
      unfold bar_body_top
      linarith
    have hentry : entry_level_of cfg rb = rb.zone_high -
        cfg.entry_fib_in_wick * (rb.zone_high - rb.zone_low) := by
      unfold entry_level_of
      rw [if_neg hne]
    have hstop : stop_of cfg df is_nq rb =
        rb.candle_high + stop_buffer cfg df is_nq rb.bar_index := by
      unfold stop_of
      rw [if_neg hne]
    have hstople : entry_level_of cfg rb ≤ stop_of cfg df is_nq rb := by
      rw [hstop, hentry, hch, ← hzh']
      nlinarith [mul_nonneg hfib hrange]
    have habs : |entry_level_of cfg rb - stop_of cfg df is_nq rb| =
        stop_of cfg df is_nq rb - entry_level_of cfg rb := by
      rw [abs_sub_comm]
      exact abs_of_nonneg (by linarith)
    rw [habs] at hrisk
    have htgt : capped_target (entry_level_of cfg rb) (stop_of cfg df is_nq rb)
        rb.direction cfg = entry_level_of cfg rb -
          |entry_level_of cfg rb - stop_of cfg df is_nq rb| * cfg.target_rr := by
      unfold capped_target
      rw [if_neg hne]
    have h0 : 0 ≤ stop_of cfg df is_nq rb - entry_level_of cfg rb := by
      linarith only [hstople]
    have h1 := mul_le_mul_of_nonneg_left hrr h0
    rw [mul_one] at h1
    refine ⟨by linarith only [htol], ?_, ?_⟩
    · intro hcontr
      rw [hd] at hcontr
      simp at hcontr
    · rintro -
      exact ⟨by linarith only [hrisk, htolmin],
        by rw [htgt, habs]; linarith only [h1, hrisk, htolmin]⟩

section C9Eval

attribute [local semireducible] Rat.add Rat.sub Rat.mul Rat.inv

/-- Witness for C9: the geometry invariants hold on the concrete emitted
record, with every hypothesis checked on the sample data. -/
theorem setup_geometry_invariants_witness :
    sample_setup.entry_zone_low ≤ sample_setup.entry_zone_high ∧
    (sample_setup.direction = "bullish" →
      sample_setup.stop < sample_setup.entry_zone_low ∧
      sample_setup.entry_zone_high < sample_setup.target) ∧
    (sample_setup.direction = "bearish" →
      sample_setup.entry_zone_high < sample_setup.stop ∧
      sample_setup.target < sample_setup.entry_zone_low) :=
  setup_geometry_invariants sample_df "NQ=F" "5m" sample_cfg none none none
    sample_setup sample_setup_mem (by decide) (by decide) (by decide) (by decide)
    (by decide) (by decide) (by decide) (by decide) (by decide) (by decide)
    (by decide)

end C9Eval
